import Mathlib

/-!
# Free-Solutions: a verification development of the route handlers in `server.js`

The handlers of the Express application are embedded as pure functions over explicit
stores (lists of documents), an explicit session record and an explicit response value.

* JavaScript strings are compared the way `Array.prototype.sort()` compares them when it is
  called without a comparator: lexicographically by UTF-16 code unit.
* A plain JavaScript object used as a map is an association list of its own properties in
  creation order, together with the property names it inherits from `Object.prototype`.
* A `Set` of strings is the list of its members in insertion order.
* A JavaScript Number is the rational its double denotes, or an infinity; a form string made
  of decimal digits casts to the double nearest to the integer it denotes.
-/

namespace FreeSolutions

/-! ## JavaScript strings and `Array.prototype.sort()` -/

/-- UTF-16 code units of one character. -/
def utf16 (c : Char) : List Nat :=
  if c.toNat < 65536 then [c.toNat]
  else [55296 + (c.toNat - 65536) / 1024, 56320 + (c.toNat - 65536) % 1024]

/-- UTF-16 code units of a string: what a JavaScript string is made of. -/
def codeUnits (s : String) : List Nat :=
  (s.toList.map utf16).flatten

/-- The `length` of a JavaScript string: its number of UTF-16 code units. -/
def jsLength (s : String) : Nat := (codeUnits s).length

/-- Lexicographic order on sequences of code units. -/
def lexLE : List Nat → List Nat → Bool
  | [], _ => true
  | _ :: _, [] => false
  | a :: as, b :: bs => decide (a < b) || (a == b && lexLE as bs)

/-- The order `sort()` uses on strings when no comparator is given. -/
def jsLE (a b : String) : Prop := lexLE (codeUnits a) (codeUnits b) = true

instance jsLE_decidable : DecidableRel jsLE := fun a b =>
  inferInstanceAs (Decidable (lexLE (codeUnits a) (codeUnits b) = true))

/-- `arr.sort()` on an array of strings. -/
def jsSort (xs : List String) : List String :=
  xs.insertionSort jsLE

/-! ## `Set` and plain objects -/

/-- `set.add(x)`: a `Set` keeps insertion order and ignores a value it already holds. -/
def setAdd (s : List String) (x : String) : List String :=
  if x ∈ s then s else s ++ [x]

/-- Own properties of a plain object, in creation order. -/
abbrev JSObject (α : Type) := List (String × α)

/-- Own-property read. -/
def JSObject.own {α : Type} (o : JSObject α) (k : String) : Option α :=
  (o.find? (fun p => p.1 == k)).map Prod.snd

/-- `o[k] = v` when the assignment lands on the object itself: an existing own property keeps
its place, a new one is created last. -/
def JSObject.assign {α : Type} (o : JSObject α) (k : String) (v : α) : JSObject α :=
  if (o.own k).isSome then o.map (fun p => if p.1 == k then (p.1, v) else p)
  else o ++ [(k, v)]

/-- Value of a string of decimal digits. -/
def digitsValue (cs : List Char) : Nat :=
  cs.foldl (fun n c => 10 * n + (c.toNat - 48)) 0

/-- A property name that is an array index: the canonical decimal form of an integer
between 0 and 2^32 - 2. -/
def isArrayIndex (k : String) : Bool :=
  match k.toList with
  | [] => false
  | [c] => c.isDigit
  | c :: cs => c.isDigit && c != '0' && cs.all Char.isDigit && decide (digitsValue (c :: cs) ≤ 4294967294)

/-- Numeric value of a property name that is an array index. -/
def indexValue (k : String) : Nat := digitsValue k.toList

/-- `Object.keys(o)`: array-index names in ascending numeric order, then every other name in
creation order. -/
def objectKeys {α : Type} (o : JSObject α) : List String :=
  ((o.map Prod.fst).filter isArrayIndex).insertionSort (fun a b => indexValue a ≤ indexValue b)
    ++ (o.map Prod.fst).filter (fun k => !isArrayIndex k)

/-! ## The suggestion map of `GET /admin/edit/:id` -/

/-- One fetched document under the projection `medium, chapterName, exercise`.
`exercise = none` stands for a document without a value in that field. -/
structure Item where
  medium : String
  chapterName : String
  exercise : Option String
deriving DecidableEq, Repr

/-- What a property read that leaves the handler's own maps finds. -/
inductive Slot where
  /-- No such property: the read gives `undefined`. -/
  | undef
  /-- A `Set` object. -/
  | aSet
  /-- Any other truthy value (a built-in function, `Object.prototype` itself, ...); it has no
  callable `add`. -/
  | other
deriving DecidableEq, Repr

/-- The part of the JavaScript realm the handler touches but does not create. -/
structure Realm where
  /-- What `Object.prototype` holds under a name other than `__proto__` when the request
  starts. -/
  inherited : String → Slot
  /-- Whether processing an item throws when `dataMap[med]` is neither of the two own maps
  nor `Object.prototype` but some other value reached through the prototype chain, given the
  items processed before it. Such an item never changes the two own maps or the names on
  `Object.prototype`. -/
  foreignThrows : List Item → Item → Bool

/-- Property names of `Object.prototype` in a fresh realm, other than `__proto__`. -/
def objectPrototypeNames : List String :=
  ["constructor", "hasOwnProperty", "isPrototypeOf", "propertyIsEnumerable", "toLocaleString",
   "toString", "valueOf", "__defineGetter__", "__defineSetter__", "__lookupGetter__",
   "__lookupSetter__"]

/-- A realm whose `Object.prototype` carries exactly the standard properties. -/
def freshRealm (foreignThrows : List Item → Item → Bool) : Realm where
  inherited := fun k => if k ∈ objectPrototypeNames then Slot.other else Slot.undef
  foreignThrows := foreignThrows

/-- State of the `forEach` loop: the two own maps of `dataMap`, the names the loop itself has
put on `Object.prototype`, and the items processed so far. -/
structure MapState where
  english : JSObject (List String)
  hindi : JSObject (List String)
  installed : List String
  seen : List Item

/-- What a read of `name` finds on `Object.prototype` for an object that inherits from it. -/
def inheritedSlot (realm : Realm) (installed : List String) (name : String) : Slot :=
  if name = "__proto__" then Slot.other
  else if name ∈ installed then Slot.aSet
  else realm.inherited name

/-- JavaScript truthiness of an optional string: `undefined`, `null` and `""` are falsy. -/
def truthy (ex : Option String) : Option String :=
  match ex with
  | some e => if e = "" then none else some e
  | none => none

/-- The loop body when `dataMap[med]` is one of the two own maps `o`.
Returns `none` when the body throws. -/
def stepOwn (realm : Realm) (installed : List String) (o : JSObject (List String))
    (chap : String) (ex : Option String) : Option (JSObject (List String)) :=
  match o.own chap with
  | some s =>
    -- own property: the first guard fails, the second adds the exercise
    match truthy ex with
    | some e => some (o.assign chap (setAdd s e))
    | none => some o
  | none =>
    match inheritedSlot realm installed chap with
    | Slot.undef =>
      -- dataMap[med][chap] = new Set()
      match truthy ex with
      | some e => some (o.assign chap (setAdd [] e))
      | none => some (o.assign chap [])
    | Slot.aSet =>
      -- an inherited Set: truthy, so nothing is created; add() lands in the inherited Set
      some o
    | Slot.other =>
      -- an inherited value without add(): truthy, so nothing is created; add() throws
      match truthy ex with
      | some _ => none
      | none => some o

/-- The loop body when `med` is `__proto__`, so that `dataMap[med]` is `Object.prototype`. -/
def stepProto (realm : Realm) (installed : List String) (chap : String) (ex : Option String) :
    Option (List String) :=
  if chap = "__proto__" then
    -- Object.prototype.__proto__ is null; assigning to it throws
    none
  else if chap ∈ installed then some installed
  else
    match realm.inherited chap with
    | Slot.undef => some (installed ++ [chap])
    | Slot.aSet => some installed
    | Slot.other =>
      match truthy ex with
      | some _ => none
      | none => some installed

/-- One iteration of `rawData.forEach(item => ...)`. Returns `none` when it throws. -/
def step (realm : Realm) (st : MapState) (item : Item) : Option MapState :=
  let med := item.medium
  let chap := item.chapterName
  let ex := item.exercise
  if med = "English" then
    (stepOwn realm st.installed st.english chap ex).map
      (fun o => { st with english := o, seen := st.seen ++ [item] })
  else if med = "Hindi" then
    (stepOwn realm st.installed st.hindi chap ex).map
      (fun o => { st with hindi := o, seen := st.seen ++ [item] })
  else if med = "__proto__" then
    (stepProto realm st.installed chap ex).map
      (fun ins => { st with installed := ins, seen := st.seen ++ [item] })
  else if med ∈ st.installed then
    if realm.foreignThrows st.seen item then none
    else some { st with seen := st.seen ++ [item] }
  else
    match realm.inherited med with
    | Slot.undef =>
      -- dataMap[med] is undefined: both guards fail
      some { st with seen := st.seen ++ [item] }
    | _ =>
      if realm.foreignThrows st.seen item then none
      else some { st with seen := st.seen ++ [item] }

/-- The whole `forEach` loop, starting from some state. -/
def runLoop (realm : Realm) : MapState → List Item → Option MapState
  | st, [] => some st
  | st, item :: rest =>
    match step realm st item with
    | some st1 => runLoop realm st1 rest
    | none => none

/-- `Object.keys(dataMap[med]).sort().forEach(chap => finalMap[med][chap] =
Array.from(dataMap[med][chap]).sort())` for one medium. -/
def finalize (o : JSObject (List String)) : JSObject (List String) :=
  (jsSort (objectKeys o)).foldl
    (fun fin chap => fin.assign chap (jsSort ((o.own chap).getD []))) []

/-- The object handed to the view as `dataMap`. -/
structure FinalMap where
  English : JSObject (List String)
  Hindi : JSObject (List String)
deriving DecidableEq, Repr

/-- `Object.keys(finalMap)`: the object is created by the literal `{ English: {}, Hindi: {} }`
and gets no other property. -/
def FinalMap.mediumKeys (_m : FinalMap) : List String := ["English", "Hindi"]

/-- The map built in `GET /admin/edit/:id` from the fetched documents; `none` when building
it throws (the handler then answers from its `catch` block). -/
def buildEditSuggestionMap (realm : Realm) (rawData : List Item) : Option FinalMap :=
  match runLoop realm { english := [], hindi := [], installed := [], seen := [] } rawData with
  | some st => some { English := finalize st.english, Hindi := finalize st.hindi }
  | none => none

/-! ## JavaScript numbers and the cast of a form string to a `Number` path -/

/-- A JavaScript Number other than `NaN`: a finite double, given as the rational it denotes, or
an infinity. -/
inductive JSNumber where
  | finite (value : ℚ)
  | infinity (negative : Bool)
deriving DecidableEq, Repr

/-- A non-empty run of the decimal digits `0` to `9`. -/
def isDecimalDigits (x : String) : Bool :=
  !x.toList.isEmpty && x.toList.all Char.isDigit

/-- The least `shift` from the given one on with `n / 2 ^ shift` below `2 ^ 53`, searched for
`fuel` steps. -/
def shiftFor : Nat → Nat → Nat → Nat
  | 0, _, shift => shift
  | fuel + 1, n, shift =>
    if n / 2 ^ shift < 9007199254740992 then shift else shiftFor fuel n (shift + 1)

/-- The integer `n` rounded to the 53 significant bits of a double, ties to the even
significand. `fuel` bounds the search for the bits to drop; four per decimal digit of `n` is
enough. -/
def roundToPrecision (fuel n : Nat) : Nat :=
  let shift := shiftFor fuel n 0
  if shift = 0 then n
  else
    let q := n / 2 ^ shift
    let r := n % 2 ^ shift
    let half := 2 ^ (shift - 1)
    if half < r ∨ (r = half ∧ q % 2 = 1) then (q + 1) * 2 ^ shift else q * 2 ^ shift

/-- `Number(x)` for a run of decimal digits `x`: the double nearest to the integer the digits
denote. An integer of at most 308 digits is below the overflow threshold `2 ^ 1024 - 2 ^ 970`;
from that threshold on the result is `Infinity`. -/
def numberOfDigits (x : String) : JSNumber :=
  let n := digitsValue x.toList
  if x.toList.length ≤ 308 then
    JSNumber.finite (roundToPrecision (4 * x.toList.length) n : Nat)
  else if 2 ^ 1024 - 2 ^ 970 ≤ n then JSNumber.infinity false
  else JSNumber.finite (roundToPrecision (4 * x.toList.length) n : Nat)

/-! ## Documents, sessions, responses -/

/-- The `role` enum of the user schema. -/
inductive Role where
  | admin
  | student
deriving DecidableEq, Repr

/-- An `ObjectId`. -/
abbrev ObjectId := Nat

/-- A document of the `User` collection (`models/User.js`). -/
structure User where
  id : ObjectId
  mobile : String
  password : String
  role : Role
  isProfileComplete : Bool
  name : Option String
  dob : Option String
  fatherName : Option String
  studentClass : Option JSNumber
  gender : Option String
  medium : Option String
  schoolName : Option String
deriving DecidableEq, Repr

/-- A document of the `Content` collection (`models/Content.js`), without its timestamps.
`classLevel = none` is a stored `null`: an update runs no validators and can leave one. -/
structure Content where
  id : ObjectId
  classLevel : Option JSNumber
  medium : String
  subject : String
  chapterName : String
  exercise : Option String
  questionNumber : String
  questionDescription : Option String
  videoID : Option String
  textSolution : Option String
  questionImage : Option String
deriving DecidableEq, Repr

/-- The fields the handlers keep in `req.session`. -/
structure Session where
  userId : Option ObjectId
  role : Option Role
  userProfile : Option User
deriving DecidableEq, Repr

/-- A parsed form body: field names with their string values. -/
abbrev Body := List (String × String)

/-- `req.body.k`: `none` when the field was not sent. -/
def Body.get (b : Body) (k : String) : Option String :=
  (b.find? (fun p => p.1 == k)).map Prod.snd

/-- Library behaviour the handlers rely on. -/
structure Lib where
  /-- Mongoose cast to a `Number` path of a non-empty string that is not a plain run of
  decimal digits (a sign, a fraction, an exponent, another radix, surrounding white space);
  `none` when the cast gives no number. -/
  castNumberSpelling : String → Option JSNumber
  /-- Mongoose cast of a string to an `ObjectId`; `none` when the cast throws. -/
  castObjectId : String → Option ObjectId
  /-- The hash `bcrypt.hash(password, 10)` returns; the salt is the library's. -/
  hash : String → String
  /-- `bcrypt.compare(password, hash)`. -/
  compare : String → String → Bool
  /-- The `message` of the error Mongoose throws for a string that is no `ObjectId`. -/
  castErrorMessage : String → String
  /-- The `message` of the error `save()` throws for a document built from this body. -/
  saveErrorMessage : Body → String
  /-- What `findByIdAndUpdate` makes of the matched document for the update built from this
  body, or the `message` of the error that casting the update throws. -/
  castUpdate : Body → Except String (Content → Content)

/-- Mongoose cast of a non-empty form string to a `Number` path: `Number(x)`, refused when it
is `NaN`. A run of decimal digits gives the double nearest to the integer it denotes; every
other spelling is the library's. -/
def castNumber (lib : Lib) (x : String) : Option JSNumber :=
  if isDecimalDigits x then some (numberOfDigits x) else lib.castNumberSpelling x

/-- Data handed to a template by `res.render`. -/
inductive View where
  | login (error : Option String)
  | registrationForm (user : Option User) (error : Option String)
  | adminDashboard (success : Bool) (error : String) (formData : Body) (questions : List Content)
  | studentDashboard (user : Option User)
  | chapterList (title subject : String) (chapters : List String) (backLink : String)
  | exerciseList (title subject chapter : String) (exercises : List String) (backLink : String)
  | questionList (title subject chapter : String) (questions : List Content)
      (exercise : Option String) (backLink : String)
  | contentView (title : String) (content : Content) (backLink : String)
  | forgotPassword (error : Option String)
  | resetPassword (userId : ObjectId)
  | editSolution (content : Content) (dataMap : FinalMap)
  | changePassword (title : Option String) (user : Option User) (error : Option String)
      (success : Option String)
deriving DecidableEq, Repr

/-- What a handler answers. -/
inductive Response where
  /-- `res.redirect(url)` with the URL as the handler spells it. -/
  | redirect (url : String)
  /-- `res.redirect(path + '?' + new URLSearchParams(params).toString())`: the parameters are
  kept as the name and value pairs that `URLSearchParams` serialises. -/
  | redirectParams (path : String) (params : List (String × String))
  | render (view : View)
  | send (text : String)
  /-- The handler throws outside any `try`: the route itself writes no response. -/
  | unhandled
deriving DecidableEq, Repr

/-! ## Authentication middleware -/

/-- The guard of `isAuthenticated`: `req.session.userId` is set. -/
def isAuthenticated (s : Session) : Bool := s.userId.isSome

/-- The guard of `isAdmin`: `req.session.role === 'admin'`. -/
def isAdmin (s : Session) : Bool := decide (s.role = some Role.admin)

/-- Where both middlewares send a request they stop. -/
def toLogin : Response := Response.redirect "/login"

/-! ## Store queries -/

/-- `Model.findById(id)`. -/
def findContentById (store : List Content) (id : ObjectId) : Option Content :=
  store.find? (fun c => c.id == id)

/-- `Model.findById(id)`. -/
def findUserById (users : List User) (id : ObjectId) : Option User :=
  users.find? (fun u => u.id == id)

/-- `query.distinct(field)` on the values of a field. -/
def distinct (values : List String) : List String := values.dedup

/-- `Content.find({}).sort({ _id: -1 })`. -/
def newestFirst (store : List Content) : List Content :=
  store.insertionSort (fun a b => b.id ≤ a.id)

/-- `Model.findByIdAndDelete(id)`. -/
def deleteContentById (store : List Content) (id : ObjectId) : List Content :=
  store.eraseP (fun c => c.id == id)

/-- `Model.findByIdAndUpdate(id, update)` on the first document with that id. -/
def updateContentById (f : Content → Content) (id : ObjectId) : List Content → List Content
  | [] => []
  | c :: rest => if c.id == id then f c :: rest else c :: updateContentById f id rest

/-- `Model.findByIdAndUpdate(id, update)` on the first document with that id. -/
def updateUserById (f : User → User) (id : ObjectId) : List User → List User
  | [] => []
  | u :: rest => if u.id == id then f u :: rest else u :: updateUserById f id rest

/-- The filter `{ classLevel: studentClass, medium }` every curriculum query starts with.
A value the profile lacks is sent as `null` and only matches a stored `null`. -/
def scopeMatch (p : User) (c : Content) : Bool :=
  decide (c.classLevel = p.studentClass) && decide (some c.medium = p.medium)

/-! ## Student routes -/

/-- `GET /student/dashboard`. -/
def getStudentDashboard (s : Session) : Response :=
  if isAuthenticated s then Response.render (View.studentDashboard s.userProfile)
  else toLogin

/-- `GET /content/:subject` (listSubjectChapters). -/
def getContentSubject (s : Session) (store : List Content) (subject : String) : Response :=
  if isAuthenticated s then
    match s.userProfile with
    | none => Response.unhandled
    | some p =>
      let chapters := distinct
        ((store.filter (fun c => scopeMatch p c && c.subject == subject)).map Content.chapterName)
      Response.render (View.chapterList subject subject chapters "/student/dashboard")
  else toLogin

/-- `GET /content/:subject/:chapter` (listChapterLevel). -/
def getContentChapter (s : Session) (store : List Content) (subject chapter : String) :
    Response :=
  if isAuthenticated s then
    match s.userProfile with
    | none => Response.unhandled
    | some p =>
      if subject = "Mathematics" then
        let exercises := distinct
          ((store.filter (fun c => scopeMatch p c && c.subject == subject
              && c.chapterName == chapter)).filterMap Content.exercise)
        Response.render (View.exerciseList chapter subject chapter exercises
          ("/content/" ++ subject))
      else
        let questions := store.filter (fun c => scopeMatch p c && c.subject == subject
              && c.chapterName == chapter)
        Response.render (View.questionList chapter subject chapter questions none
          ("/content/" ++ subject))
  else toLogin

/-- `GET /content/:subject/:chapter/:exercise` (listExerciseQuestions). -/
def getContentExercise (s : Session) (store : List Content) (subject chapter exercise : String) :
    Response :=
  if isAuthenticated s then
    match s.userProfile with
    | none => Response.unhandled
    | some p =>
      let questions := store.filter (fun c => scopeMatch p c && c.subject == subject
            && c.chapterName == chapter && decide (c.exercise = some exercise))
      Response.render (View.questionList ("Exercise " ++ exercise) subject chapter questions
        (some exercise) ("/content/" ++ subject ++ "/" ++ chapter))
  else toLogin

/-- The back link `GET /solution/:id` computes for a document. -/
def backLink (content : Content) : String :=
  match truthy content.exercise with
  | some e => "/content/" ++ content.subject ++ "/" ++ content.chapterName ++ "/" ++ e
  | none => "/content/" ++ content.subject ++ "/" ++ content.chapterName

/-- `GET /solution/:id` (getQuestion). -/
def getSolution (lib : Lib) (s : Session) (store : List Content) (id : String) : Response :=
  if isAuthenticated s then
    match lib.castObjectId id with
    | none => Response.unhandled
    | some oid =>
      match findContentById store oid with
      | none => Response.unhandled
      | some content =>
        Response.render (View.contentView ("Question " ++ content.questionNumber) content
          (backLink content))
  else toLogin

/-! ## Admin routes -/

/-- What the `upload.single('questionImage')` middleware makes of the request. -/
inductive Upload where
  /-- No file was sent. -/
  | noFile
  /-- The file was stored; `path` is the reference the storage service returned. -/
  | stored (path : String)
  /-- The file is over the size limit: a `MulterError` with code `LIMIT_FILE_SIZE`. -/
  | tooLarge
  /-- Any other error of the middleware, with its message. -/
  | failed (message : String)
deriving DecidableEq, Repr

/-- An error that reaches the global error handler. -/
inductive AppError where
  | limitFileSize
  | other (message : String)
deriving DecidableEq, Repr

/-- The JavaScript expression `v || ''` on an optional string. -/
def orEmpty (v : Option String) : String :=
  match truthy v with
  | some x => x
  | none => ""

/-- The global error handler (the last `app.use`). -/
def errorHandler (err : AppError) (body : Body) : Response :=
  match err with
  | AppError.limitFileSize =>
    Response.redirectParams "/admin/dashboard"
      [("error", "File too large! Max limit is 2MB."),
       ("classLevel", orEmpty (body.get "classLevel")),
       ("medium", orEmpty (body.get "medium")),
       ("subject", orEmpty (body.get "subject")),
       ("chapterName", orEmpty (body.get "chapterName")),
       ("exercise", orEmpty (body.get "exercise")),
       ("questionNo", orEmpty (body.get "questionNo")),
       ("questionDescription", orEmpty (body.get "questionDescription")),
       ("videoLink", orEmpty (body.get "videoLink"))]
  | AppError.other message => Response.redirect ("/admin/dashboard?error=" ++ message)

/-- A required string path: present and not empty. -/
def requiredString (v : Option String) : Option String := truthy v

/-- `new Content(fields)` followed by the validation `save()` runs: the document that gets
stored, or `none` when validation rejects it. -/
def newContent (lib : Lib) (fresh : ObjectId) (body : Body) (image : Option String) :
    Option Content :=
  match (truthy (body.get "classLevel")).bind (castNumber lib),
        requiredString (body.get "medium"),
        requiredString (body.get "subject"),
        requiredString (body.get "chapterName"),
        requiredString (body.get "questionNumber") with
  | some classLevel, some medium, some subject, some chapterName, some questionNumber =>
    some { id := fresh
           classLevel := some classLevel
           medium := medium
           subject := subject
           chapterName := chapterName
           exercise := body.get "exercise"
           questionNumber := questionNumber
           questionDescription := body.get "questionDescription"
           videoID := body.get "videoID"
           textSolution := body.get "textSolution"
           questionImage := image }
  | _, _, _, _, _ => none

/-- The route function of `POST /admin/add-solution`, run after the upload middleware let the
request through with `image` as `req.file.path` (or no file). -/
def addSolution (lib : Lib) (store : List Content) (fresh : ObjectId) (body : Body)
    (image : Option String) : Response × List Content :=
  match newContent lib fresh body image with
  | some c => (Response.redirect "/admin/dashboard?success=true", store ++ [c])
  | none =>
    (Response.render (View.adminDashboard false ("Error: " ++ lib.saveErrorMessage body) body
      (newestFirst store)), store)

/-- `POST /admin/add-solution` (createContent): the upload middleware, then the route function.
The session is not consulted. -/
def postAddSolution (lib : Lib) (_s : Session) (store : List Content) (fresh : ObjectId)
    (upload : Upload) (body : Body) : Response × List Content :=
  match upload with
  | Upload.tooLarge => (errorHandler AppError.limitFileSize body, store)
  | Upload.failed message => (errorHandler (AppError.other message) body, store)
  | Upload.stored path => addSolution lib store fresh body (some path)
  | Upload.noFile => addSolution lib store fresh body none

/-- `POST /admin/edit/:id` (updateContent). -/
def postAdminEdit (lib : Lib) (s : Session) (store : List Content) (id : String) (body : Body) :
    Response × List Content :=
  if isAuthenticated s then
    if isAdmin s then
      match lib.castObjectId id with
      | none => (Response.send ("Error updating: " ++ lib.castErrorMessage id), store)
      | some oid =>
        match lib.castUpdate body with
        | Except.ok f => (Response.redirect "/admin/database", updateContentById f oid store)
        | Except.error message => (Response.send ("Error updating: " ++ message), store)
    else (toLogin, store)
  else (toLogin, store)

/-- `GET /admin/delete/:id` (deleteContent). -/
def getAdminDelete (lib : Lib) (s : Session) (store : List Content) (id : String) :
    Response × List Content :=
  if isAuthenticated s then
    if isAdmin s then
      match lib.castObjectId id with
      | some oid => (Response.redirect "/admin/database", deleteContentById store oid)
      | none => (Response.send ("Error deleting: " ++ lib.castErrorMessage id), store)
    else (toLogin, store)
  else (toLogin, store)

/-- The projection `medium, chapterName, exercise` of a document. -/
def project (c : Content) : Item :=
  { medium := c.medium, chapterName := c.chapterName, exercise := c.exercise }

/-- `GET /admin/edit/:id`: every failure inside the `try` ends in the same redirect. -/
def getAdminEdit (lib : Lib) (realm : Realm) (_s : Session) (store : List Content)
    (id : String) : Response :=
  match (lib.castObjectId id).bind (findContentById store) with
  | none => Response.redirect "/admin/database?error=Could not load solution"
  | some content =>
    let rawData := (store.filter (fun c => c.subject == content.subject)).map project
    match buildEditSuggestionMap realm rawData with
    | some finalMap => Response.render (View.editSolution content finalMap)
    | none => Response.redirect "/admin/database?error=Could not load solution"

/-! ## Accounts -/

/-- `User.findOne({ mobile })`. A field the body lacks is sent as `null` and matches no user,
since every user has a mobile number. -/
def findUserByMobile (users : List User) (mobile : Option String) : Option User :=
  users.find? (fun u => decide (some u.mobile = mobile))

/-- `POST /login`. Returns the response and the session after the request. -/
def postLogin (lib : Lib) (users : List User) (s : Session) (body : Body) :
    Response × Session :=
  match findUserByMobile users (body.get "mobile") with
  | none => (Response.redirect "/login?error=Invalid%20Mobile%20or%20Password", s)
  | some user =>
    match body.get "password" with
    | none =>
      -- bcrypt.compare throws on a missing password; the catch block answers
      (Response.redirect "/login?error=Server%20Error", s)
    | some password =>
      if lib.compare password user.password then
        let s1 : Session :=
          { userId := some user.id, role := some user.role, userProfile := some user }
        if user.role = Role.admin then (Response.redirect "/admin/dashboard", s1)
        else if !user.isProfileComplete then (Response.redirect "/student/register", s1)
        else (Response.redirect "/student/dashboard", s1)
      else (Response.redirect "/login?error=Invalid%20Mobile%20or%20Password", s)

/-- An optional path with an `enum`: absent, or one of the listed values. -/
def enumOk (values : List String) (v : Option String) : Bool :=
  match v with
  | none => true
  | some x => decide (x ∈ values)

/-- The `studentClass` path of a new user: absent or empty gives no value; otherwise the cast
must give a number between 6 and 12. The outer `none` is a rejected document. -/
def castStudentClass (lib : Lib) (v : Option String) : Option (Option JSNumber) :=
  match truthy v with
  | none => some none
  | some x =>
    match castNumber lib x with
    | some (JSNumber.finite n) =>
      if 6 ≤ n ∧ n ≤ 12 then some (some (JSNumber.finite n)) else none
    | _ => none

/-- `new User(fields)` followed by the validation `save()` runs. -/
def newUser (lib : Lib) (fresh : ObjectId) (body : Body) (hashedPassword : String) :
    Option User :=
  match requiredString (body.get "mobile"), requiredString (some hashedPassword),
        castStudentClass lib (body.get "studentClass") with
  | some mobile, some password, some studentClass =>
    if enumOk ["Male", "Female", "Other"] (body.get "gender")
        && enumOk ["Hindi", "English"] (body.get "medium") then
      some { id := fresh
             mobile := mobile
             password := password
             role := Role.student
             isProfileComplete := true
             name := body.get "name"
             dob := body.get "dob"
             fatherName := body.get "fatherName"
             studentClass := studentClass
             gender := body.get "gender"
             medium := body.get "medium"
             schoolName := body.get "schoolName" }
    else none
  | _, _, _ => none

/-- `POST /student/register`. -/
def postStudentRegister (lib : Lib) (users : List User) (fresh : ObjectId) (body : Body) :
    Response × List User :=
  match findUserByMobile users (body.get "mobile") with
  | some _ =>
    (Response.render (View.registrationForm none
      (some "❌ Mobile number already registered. Please Login.")), users)
  | none =>
    match body.get "password" with
    | none => (Response.send "Error creating account. Please try again.", users)
    | some password =>
      match newUser lib fresh body (lib.hash password) with
      | some u =>
        (Response.render (View.login (some "✅ Account Created! Please Login.")), users ++ [u])
      | none => (Response.send "Error creating account. Please try again.", users)

/-- `POST /verify-user`: `User.findOne({ mobile, dob })`. A field the body lacks is sent as
`null` and matches a user without a value in that field. -/
def postVerifyUser (users : List User) (body : Body) : Response :=
  match users.find? (fun u =>
      decide (some u.mobile = body.get "mobile") && decide (u.dob = body.get "dob")) with
  | none =>
    Response.render (View.forgotPassword (some "❌ Details do not match (Wrong Mobile or DOB)."))
  | some user => Response.render (View.resetPassword user.id)

/-- `POST /reset-password-final`. -/
def postResetPasswordFinal (lib : Lib) (users : List User) (body : Body) :
    Response × List User :=
  match body.get "newPassword" with
  | none =>
    -- bcrypt.hash throws on a missing password
    (Response.send "Error resetting password.", users)
  | some newPassword =>
    let hashedPassword := lib.hash newPassword
    match body.get "userId" with
    | none =>
      -- no id: no document matches
      (Response.render (View.login (some "✅ Password Reset! Please Login.")), users)
    | some userId =>
      match lib.castObjectId userId with
      | none => (Response.send "Error resetting password.", users)
      | some oid =>
        (Response.render (View.login (some "✅ Password Reset! Please Login.")),
          updateUserById (fun u => { u with password := hashedPassword }) oid users)

/-- `POST /change-password`. A stored user document passes the validation `save()` runs, so
the save of the new hash goes through. -/
def postChangePassword (lib : Lib) (s : Session) (users : List User) (body : Body) :
    Response × List User :=
  match s.userId with
  | none => (toLogin, users)
  | some userId =>
    let oldPassword := body.get "oldPassword"
    let newPassword := body.get "newPassword"
    let confirmPassword := body.get "confirmPassword"
    if newPassword ≠ confirmPassword then
      (Response.render (View.changePassword (some "Change Password") s.userProfile
        (some "New passwords do not match.") none), users)
    else
      match newPassword with
      | none =>
        -- both fields are missing: reading newPassword.length throws outside the try block
        (Response.unhandled, users)
      | some newPassword =>
        if jsLength newPassword < 6 then
          (Response.render (View.changePassword (some "Change Password") s.userProfile
            (some "Password must be at least 6 characters long.") none), users)
        else
          match findUserById users userId, oldPassword with
          | some user, some oldPassword =>
            if lib.compare oldPassword user.password then
              let hashedPassword := lib.hash newPassword
              (Response.render (View.changePassword (some "Change Password") s.userProfile
                none (some "Password changed successfully!")),
                updateUserById (fun u => { u with password := hashedPassword }) userId users)
            else
              (Response.render (View.changePassword (some "Change Password") s.userProfile
                (some "Incorrect current password.") none), users)
          | _, _ =>
            -- no such user, or bcrypt.compare throws on a missing password: the catch block
            (Response.render (View.changePassword (some "Change Password") s.userProfile
              (some "Server error. Please try again.") none), users)

/-! ## Specification predicates for the suggestion map -/

/-- Loop invariant for one medium: after the documents `done`, the own map `o` has one
property per chapter seen for that medium, holding the non-empty exercise labels seen for that
medium and chapter, each once. -/
def Collects (med : String) (done : List Item) (o : JSObject (List String)) : Prop :=
  (o.map Prod.fst).Nodup ∧
  ∀ c, ((o.own c).isSome ↔ ∃ it ∈ done, it.medium = med ∧ it.chapterName = c) ∧
    ∀ l, o.own c = some l → l.Nodup ∧
      ∀ e, e ∈ l ↔ e ≠ "" ∧
        ∃ it ∈ done, it.medium = med ∧ it.chapterName = c ∧ it.exercise = some e

/-- An item the loop handles without leaving its own two maps. -/
def Clean (realm : Realm) (item : Item) : Prop :=
  (item.medium = "English" ∨ item.medium = "Hindi" ∨
    (item.medium ≠ "__proto__" ∧ realm.inherited item.medium = Slot.undef)) ∧
  (item.medium = "English" ∨ item.medium = "Hindi" →
    item.chapterName ≠ "__proto__" ∧ realm.inherited item.chapterName = Slot.undef)

/-- The grouping of the fetched documents that one medium of the final map holds. -/
def Summarises (med : String) (rawData : List Item) (o : JSObject (List String)) : Prop :=
  ∀ c, ((o.own c).isSome ↔ ∃ it ∈ rawData, it.medium = med ∧ it.chapterName = c) ∧
    ∀ l, o.own c = some l → l.Sorted jsLE ∧ l.Nodup ∧
      ∀ e, e ∈ l ↔ e ≠ "" ∧
        ∃ it ∈ rawData, it.medium = med ∧ it.chapterName = c ∧ it.exercise = some e

/-! ## Sample data used to instantiate the theorems -/

/-- A library whose casts accept the strings the examples use. -/
def sampleLib : Lib where
  castNumberSpelling := fun _ => none
  castObjectId := fun x => if x = "a1" then some 1 else if x = "a2" then some 2 else none
  hash := fun pw => "hash:" ++ pw
  compare := fun pw h => h == "hash:" ++ pw
  castErrorMessage := fun x => "Cast to ObjectId failed for value " ++ x
  saveErrorMessage := fun _ => "Content validation failed"
  castUpdate := fun _ => Except.ok id

/-- A session without a logged-in user. -/
def anonymous : Session := { userId := none, role := none, userProfile := none }

/-- The student `add-student.js` creates: no profile yet. -/
def seedStudent : User :=
  { id := 7, mobile := "1234567890", password := "hash:student123", role := Role.student
    isProfileComplete := false, name := none, dob := none, fatherName := none
    studentClass := none, gender := none, medium := none, schoolName := none }

/-- A registered student of class 10, English medium. -/
def sampleStudent : User :=
  { id := 1, mobile := "9999999999", password := "hash:secret1", role := Role.student
    isProfileComplete := true, name := some "Asha", dob := some "2010-05-01"
    fatherName := none, studentClass := some (JSNumber.finite 10), gender := some "Female"
    medium := some "English", schoolName := none }

/-- An administrator. -/
def sampleAdmin : User :=
  { id := 2, mobile := "8888888888", password := "hash:admin123", role := Role.admin
    isProfileComplete := false, name := none, dob := none, fatherName := none
    studentClass := none, gender := none, medium := none, schoolName := none }

/-- The session `POST /login` leaves for a user. -/
def sessionOf (u : User) : Session :=
  { userId := some u.id, role := some u.role, userProfile := some u }

/-- A Mathematics question of class 10, English medium. -/
def mathQuestion : Content :=
  { id := 1, classLevel := some (JSNumber.finite 10), medium := "English", subject := "Mathematics"
    chapterName := "Triangles", exercise := some "6.1", questionNumber := "5a"
    questionDescription := none, videoID := none, textSolution := none, questionImage := none }

/-- A Science question of class 10, English medium, stored with an empty exercise field. -/
def scienceQuestion : Content :=
  { id := 2, classLevel := some (JSNumber.finite 10), medium := "English", subject := "Science"
    chapterName := "Force", exercise := some "", questionNumber := "1"
    questionDescription := none, videoID := none, textSolution := none, questionImage := none }

/-- What the store holds after a form sent the class level `9007199254740993`. -/
def roundedQuestion : Content :=
  { id := 1, classLevel := some (JSNumber.finite 9007199254740992), medium := "English"
    subject := "Mathematics", chapterName := "Triangles", exercise := none
    questionNumber := "5a", questionDescription := none, videoID := none
    textSolution := none, questionImage := none }

/-- The same Mathematics question for class 9, Hindi medium. -/
def otherClassQuestion : Content :=
  { id := 3, classLevel := some (JSNumber.finite 9), medium := "Hindi", subject := "Mathematics"
    chapterName := "Triangles", exercise := some "6.3", questionNumber := "2"
    questionDescription := none, videoID := none, textSolution := none, questionImage := none }

/-! ## The suggestion map: sorting, sets and own properties -/

theorem lexLE_total (a b : List Nat) : lexLE a b = true ∨ lexLE b a = true := by
  induction a generalizing b with
  | nil => simp [lexLE]
  | cons x xs ih =>
    cases b with
    | nil => simp [lexLE]
    | cons y ys =>
      simp only [lexLE, Bool.or_eq_true, Bool.and_eq_true, decide_eq_true_eq, beq_iff_eq]
      rcases Nat.lt_trichotomy x y with h | h | h
      · exact Or.inl (Or.inl h)
      · subst h
        rcases ih ys with h1 | h1
        · exact Or.inl (Or.inr ⟨rfl, h1⟩)
        · exact Or.inr (Or.inr ⟨rfl, h1⟩)
      · exact Or.inr (Or.inl h)

theorem lexLE_trans (a b c : List Nat) (hab : lexLE a b = true) (hbc : lexLE b c = true) :
    lexLE a c = true := by
  induction a generalizing b c with
  | nil => simp [lexLE]
  | cons x xs ih =>
    cases b with
    | nil => simp [lexLE] at hab
    | cons y ys =>
      cases c with
      | nil => simp [lexLE] at hbc
      | cons z zs =>
        simp only [lexLE, Bool.or_eq_true, Bool.and_eq_true, decide_eq_true_eq,
          beq_iff_eq] at hab hbc ⊢
        rcases hab with h1 | ⟨h1, h1r⟩
        · rcases hbc with h2 | ⟨h2, _⟩
          · exact Or.inl (Nat.lt_trans h1 h2)
          · exact Or.inl (h2 ▸ h1)
        · rcases hbc with h2 | ⟨h2, h2r⟩
          · exact Or.inl (h1 ▸ h2)
          · exact Or.inr ⟨h1.trans h2, ih ys zs h1r h2r⟩

theorem jsSort_sorted (xs : List String) : (jsSort xs).Sorted jsLE := by
  haveI : IsTotal String jsLE := ⟨fun a b => lexLE_total _ _⟩
  haveI : IsTrans String jsLE := ⟨fun a b c => lexLE_trans _ _ _⟩
  exact List.sorted_insertionSort jsLE xs

theorem jsSort_perm (xs : List String) : (jsSort xs).Perm xs :=
  List.perm_insertionSort jsLE xs

theorem mem_setAdd (s : List String) (x y : String) : y ∈ setAdd s x ↔ y ∈ s ∨ y = x := by
  unfold setAdd
  split
  · constructor
    · exact Or.inl
    · rintro (h | h)
      · exact h
      · subst h; assumption
  · simp

theorem nodup_setAdd (s : List String) (x : String) (h : s.Nodup) : (setAdd s x).Nodup := by
  unfold setAdd
  split
  · exact h
  · rename_i hx
    exact List.Nodup.append h (List.nodup_singleton x) (by simpa using hx)

theorem own_nil {α : Type} (k : String) : JSObject.own ([] : JSObject α) k = none := rfl

theorem own_cons {α : Type} (p : String × α) (rest : JSObject α) (k : String) :
    JSObject.own (p :: rest) k = if p.1 = k then some p.2 else JSObject.own rest k := by
  unfold JSObject.own
  by_cases h : p.1 = k
  · simp [List.find?, h]
  · have hb : (p.1 == k) = false := by simpa using h
    simp only [List.find?, hb, h, if_false]

theorem own_isSome_iff {α : Type} (o : JSObject α) (k : String) :
    (o.own k).isSome ↔ k ∈ o.map Prod.fst := by
  induction o with
  | nil => simp [own_nil]
  | cons p rest ih =>
    rw [own_cons]
    by_cases h : p.1 = k
    · simp [h]
    · have h2 : ¬ k = p.1 := fun e => h e.symm
      simp only [h, if_false, List.map_cons, List.mem_cons, h2, false_or]
      exact ih

theorem own_eq_none_iff {α : Type} (o : JSObject α) (k : String) :
    o.own k = none ↔ k ∉ o.map Prod.fst := by
  rw [← own_isSome_iff]
  cases o.own k <;> simp

theorem own_append {α : Type} (o o2 : JSObject α) (k : String) :
    JSObject.own (o ++ o2) k = (o.own k).or (o2.own k) := by
  induction o with
  | nil => simp [own_nil]
  | cons p rest ih =>
    rw [List.cons_append, own_cons, own_cons]
    by_cases h : p.1 = k
    · simp [h]
    · simp [h, ih]

theorem own_update {α : Type} (o : JSObject α) (k k2 : String) (v : α) :
    JSObject.own (o.map (fun p => if p.1 == k then (p.1, v) else p)) k2 =
      if k2 = k then (o.own k).map (fun _ => v) else o.own k2 := by
  induction o with
  | nil => simp [own_nil]
  | cons p rest ih =>
    rw [List.map_cons, own_cons, ih, own_cons, own_cons]
    by_cases hk : k2 = k
    · subst hk
      by_cases hp : p.1 = k2
      · simp [hp]
      · simp [hp]
    · by_cases hp : p.1 = k
      · have : ¬ p.1 = k2 := fun e => hk (e.symm.trans hp)
        simp [hp, hk, this, Ne.symm hk]
      · by_cases hp2 : p.1 = k2
        · simp [hp, hk, hp2]
        · simp [hp, hk, hp2]

theorem own_assign_same {α : Type} (o : JSObject α) (k : String) (v : α) :
    (o.assign k v).own k = some v := by
  unfold JSObject.assign
  cases h : o.own k with
  | some x =>
    simp only [Option.isSome_some, if_true]
    rw [own_update]
    simp [h]
  | none => simp [own_append, h, own_cons]

theorem own_assign_other {α : Type} (o : JSObject α) (k k2 : String) (v : α) (hne : k2 ≠ k) :
    (o.assign k v).own k2 = o.own k2 := by
  unfold JSObject.assign
  split
  · rw [own_update]
    simp [hne]
  · rw [own_append, own_cons]
    simp [Ne.symm hne, own_nil]

theorem keys_assign {α : Type} (o : JSObject α) (k : String) (v : α) :
    (o.assign k v).map Prod.fst =
      if (o.own k).isSome then o.map Prod.fst else o.map Prod.fst ++ [k] := by
  unfold JSObject.assign
  split
  · rw [List.map_map]
    apply List.map_congr_left
    intro p _
    simp only [Function.comp]
    split <;> rfl
  · simp

theorem truthy_eq_some (ex : Option String) (e : String) :
    truthy ex = some e ↔ ex = some e ∧ e ≠ "" := by
  unfold truthy
  cases ex with
  | none => simp
  | some x =>
    by_cases hx : x = ""
    · subst hx
      simp only [if_true, Option.some.injEq, ne_eq, false_iff, reduceCtorEq, not_and, not_not]
      intro h1
      exact h1.symm
    · simp [hx]
      intro h
      subst h
      exact hx

theorem truthy_eq_none (ex : Option String) :
    truthy ex = none ↔ ∀ e, ex = some e → e = "" := by
  unfold truthy
  cases ex with
  | none => simp
  | some x =>
    by_cases hx : x = ""
    · simp [hx]
    · simp [hx]

theorem collects_other (med : String) (done : List Item) (o : JSObject (List String))
    (item : Item) (hne : item.medium ≠ med) (h : Collects med done o) :
    Collects med (done ++ [item]) o := by
  obtain ⟨hk, h⟩ := h
  refine ⟨hk, fun c => ?_⟩
  obtain ⟨h1, h2⟩ := h c
  constructor
  · rw [h1]
    constructor
    · rintro ⟨it, hit, hm⟩
      exact ⟨it, List.mem_append_left _ hit, hm⟩
    · rintro ⟨it, hit, hm⟩
      rcases List.mem_append.mp hit with hit | hit
      · exact ⟨it, hit, hm⟩
      · simp only [List.mem_singleton] at hit
        subst hit
        exact absurd hm.1 hne
  · intro l hl
    obtain ⟨hn, hmem⟩ := h2 l hl
    refine ⟨hn, fun e => ?_⟩
    rw [hmem e]
    constructor
    · rintro ⟨he, it, hit, hm⟩
      exact ⟨he, it, List.mem_append_left _ hit, hm⟩
    · rintro ⟨he, it, hit, hm⟩
      rcases List.mem_append.mp hit with hit | hit
      · exact ⟨he, it, hit, hm⟩
      · simp only [List.mem_singleton] at hit
        subst hit
        exact absurd hm.1 hne

theorem collects_unchanged (med chap : String) (ex : Option String) (done : List Item)
    (o : JSObject (List String)) (s : List String) (hown : o.own chap = some s)
    (hex : truthy ex = none) (h : Collects med done o) :
    Collects med (done ++ [{ medium := med, chapterName := chap, exercise := ex }]) o := by
  obtain ⟨hk, h⟩ := h
  refine ⟨hk, fun c => ?_⟩
  obtain ⟨h1, h2⟩ := h c
  constructor
  · constructor
    · intro hc
      obtain ⟨it, hit, hm⟩ := h1.mp hc
      exact ⟨it, List.mem_append_left _ hit, hm⟩
    · rintro ⟨it, hit, hm⟩
      rcases List.mem_append.mp hit with hit | hit
      · exact h1.mpr ⟨it, hit, hm⟩
      · simp only [List.mem_singleton] at hit
        subst hit
        simp only at hm
        rw [← hm.2, hown]
        rfl
  · intro l hl
    obtain ⟨hn, hmem⟩ := h2 l hl
    refine ⟨hn, fun e => ?_⟩
    rw [hmem e]
    constructor
    · rintro ⟨he, it, hit, hm⟩
      exact ⟨he, it, List.mem_append_left _ hit, hm⟩
    · rintro ⟨he, it, hit, hm⟩
      rcases List.mem_append.mp hit with hit | hit
      · exact ⟨he, it, hit, hm⟩
      · simp only [List.mem_singleton] at hit
        subst hit
        simp only at hm
        exact absurd ((truthy_eq_none ex).mp hex e hm.2.2) he

theorem collects_assign (med chap : String) (ex : Option String) (done : List Item)
    (o : JSObject (List String)) (l1 : List String) (hl1 : l1.Nodup)
    (hmem1 : ∀ e, e ∈ l1 ↔ e ∈ (o.own chap).getD [] ∨ truthy ex = some e)
    (h : Collects med done o) :
    Collects med (done ++ [{ medium := med, chapterName := chap, exercise := ex }])
      (o.assign chap l1) := by
  obtain ⟨hk, h⟩ := h
  refine ⟨?_, fun c => ?_⟩
  · rw [keys_assign]
    split
    · exact hk
    · rename_i hno
      rw [own_isSome_iff] at hno
      exact List.Nodup.append hk (List.nodup_singleton _) (by simpa using hno)
  · obtain ⟨h1, h2⟩ := h c
    by_cases hc : c = chap
    · subst hc
      rw [own_assign_same]
      constructor
      · simp only [Option.isSome_some, true_iff]
        exact ⟨_, List.mem_append_right _ (List.mem_singleton_self _), rfl, rfl⟩
      · intro l hl
        simp only [Option.some.injEq] at hl
        subst hl
        refine ⟨hl1, fun e => ?_⟩
        rw [hmem1 e, truthy_eq_some]
        constructor
        · rintro (he | ⟨he, hne⟩)
          · cases hown : o.own c with
            | none => simp [hown] at he
            | some s =>
              simp only [hown, Option.getD_some] at he
              obtain ⟨hne, it, hit, hm⟩ := ((h2 s hown).2 e).mp he
              exact ⟨hne, it, List.mem_append_left _ hit, hm⟩
          · exact ⟨hne, _, List.mem_append_right _ (List.mem_singleton_self _), rfl, rfl, he⟩
        · rintro ⟨hne, it, hit, hm⟩
          rcases List.mem_append.mp hit with hit | hit
          · left
            have hsome : (o.own c).isSome := h1.mpr ⟨it, hit, hm.1, hm.2.1⟩
            cases hown : o.own c with
            | none => simp [hown] at hsome
            | some s =>
              simp only [Option.getD_some]
              exact ((h2 s hown).2 e).mpr ⟨hne, it, hit, hm⟩
          · simp only [List.mem_singleton] at hit
            subst hit
            exact Or.inr ⟨hm.2.2, hne⟩
    · rw [own_assign_other _ _ _ _ hc]
      constructor
      · rw [h1]
        constructor
        · rintro ⟨it, hit, hm⟩
          exact ⟨it, List.mem_append_left _ hit, hm⟩
        · rintro ⟨it, hit, hm⟩
          rcases List.mem_append.mp hit with hit | hit
          · exact ⟨it, hit, hm⟩
          · simp only [List.mem_singleton] at hit
            subst hit
            exact absurd hm.2.symm hc
      · intro l hl
        obtain ⟨hn, hmem⟩ := h2 l hl
        refine ⟨hn, fun e => ?_⟩
        rw [hmem e]
        constructor
        · rintro ⟨he, it, hit, hm⟩
          exact ⟨he, it, List.mem_append_left _ hit, hm⟩
        · rintro ⟨he, it, hit, hm⟩
          rcases List.mem_append.mp hit with hit | hit
          · exact ⟨he, it, hit, hm⟩
          · simp only [List.mem_singleton] at hit
            subst hit
            exact absurd hm.2.1.symm hc

theorem stepOwn_clean (realm : Realm) (med chap : String) (ex : Option String)
    (done : List Item) (o : JSObject (List String))
    (hslot : inheritedSlot realm [] chap = Slot.undef) (h : Collects med done o) :
    ∃ o1, stepOwn realm [] o chap ex = some o1 ∧
      Collects med (done ++ [{ medium := med, chapterName := chap, exercise := ex }]) o1 := by
  unfold stepOwn
  cases hown : o.own chap with
  | some s =>
    cases ht : truthy ex with
    | some e =>
      refine ⟨_, rfl, collects_assign med chap ex done o _
        (nodup_setAdd s e ((h.2 chap).2 s hown).1) ?_ h⟩
      intro y
      rw [mem_setAdd, hown, ht]
      simp [eq_comm]
    | none => exact ⟨_, rfl, collects_unchanged med chap ex done o s hown ht h⟩
  | none =>
    simp only [hslot]
    cases ht : truthy ex with
    | some e =>
      refine ⟨_, rfl, collects_assign med chap ex done o _
        (nodup_setAdd [] e List.nodup_nil) ?_ h⟩
      intro y
      rw [mem_setAdd, hown, ht]
      simp [eq_comm]
    | none =>
      refine ⟨_, rfl, collects_assign med chap ex done o [] List.nodup_nil ?_ h⟩
      intro y
      rw [hown, ht]
      simp

theorem inheritedSlot_clean (realm : Realm) (chap : String) (h1 : chap ≠ "__proto__")
    (h2 : realm.inherited chap = Slot.undef) : inheritedSlot realm [] chap = Slot.undef := by
  simp [inheritedSlot, h1, h2]

theorem runLoop_clean (realm : Realm) :
    ∀ (rest : List Item) (st : MapState) (done : List Item),
      st.installed = [] → Collects "English" done st.english →
      Collects "Hindi" done st.hindi → (∀ it ∈ rest, Clean realm it) →
      ∃ st1, runLoop realm st rest = some st1 ∧
        Collects "English" (done ++ rest) st1.english ∧
        Collects "Hindi" (done ++ rest) st1.hindi := by
  intro rest
  induction rest with
  | nil =>
    intro st done _ he hh _
    exact ⟨st, rfl, by simpa using he, by simpa using hh⟩
  | cons item rest ih =>
    intro st done hins he hh hclean
    have hitem := hclean item (List.mem_cons_self _ _)
    have hrest : ∀ it ∈ rest, Clean realm it :=
      fun it hit => hclean it (List.mem_cons_of_mem _ hit)
    have happ : done ++ item :: rest = (done ++ [item]) ++ rest := by simp
    obtain ⟨med, chap, ex⟩ := item
    rw [happ]
    simp only [runLoop]
    by_cases hE : med = "English"
    · subst hE
      obtain ⟨h1, h2⟩ := hitem.2 (Or.inl rfl)
      obtain ⟨o1, ho1, hc1⟩ :=
        stepOwn_clean realm "English" chap ex done st.english
          (inheritedSlot_clean realm chap h1 h2) he
      have hstep : step realm st ⟨"English", chap, ex⟩ =
          some { st with english := o1, seen := st.seen ++ [⟨"English", chap, ex⟩] } := by
        simp [step, hins, ho1]
      rw [hstep]
      exact ih _ _ hins hc1
        (collects_other "Hindi" done st.hindi _ (show "English" ≠ "Hindi" by decide) hh) hrest
    · by_cases hH : med = "Hindi"
      · subst hH
        obtain ⟨h1, h2⟩ := hitem.2 (Or.inr rfl)
        obtain ⟨o1, ho1, hc1⟩ :=
          stepOwn_clean realm "Hindi" chap ex done st.hindi
            (inheritedSlot_clean realm chap h1 h2) hh
        have hstep : step realm st ⟨"Hindi", chap, ex⟩ =
            some { st with hindi := o1, seen := st.seen ++ [⟨"Hindi", chap, ex⟩] } := by
          simp [step, hins, ho1]
        rw [hstep]
        exact ih _ _ hins
          (collects_other "English" done st.english _ (show "Hindi" ≠ "English" by decide) he)
          hc1 hrest
      · have hother : med ≠ "__proto__" ∧ realm.inherited med = Slot.undef := by
          rcases hitem.1 with h | h | h
          · exact absurd h hE
          · exact absurd h hH
          · exact h
        have hstep : step realm st ⟨med, chap, ex⟩ =
            some { st with seen := st.seen ++ [⟨med, chap, ex⟩] } := by
          simp [step, hins, hE, hH, hother.1, hother.2]
        rw [hstep]
        exact ih _ _ hins (collects_other "English" done st.english _ hE he)
          (collects_other "Hindi" done st.hindi _ hH hh) hrest

theorem objectKeys_perm {α : Type} (o : JSObject α) : (objectKeys o).Perm (o.map Prod.fst) := by
  unfold objectKeys
  exact ((List.perm_insertionSort _ _).append_right _).trans
    (List.filter_append_perm isArrayIndex (o.map Prod.fst))

theorem foldl_assign {α : Type} (f : String → α) :
    ∀ (keys : List String) (acc : JSObject α), keys.Nodup →
      (∀ k ∈ keys, k ∉ acc.map Prod.fst) →
      keys.foldl (fun fin k => fin.assign k (f k)) acc = acc ++ keys.map (fun k => (k, f k)) := by
  intro keys
  induction keys with
  | nil => intro acc _ _; simp
  | cons k rest ih =>
    intro acc hnd hdis
    have hk : acc.own k = none := (own_eq_none_iff acc k).mpr (hdis k (List.mem_cons_self _ _))
    have hassign : acc.assign k (f k) = acc ++ [(k, f k)] := by
      simp [JSObject.assign, hk]
    rw [List.foldl_cons, hassign, ih (acc ++ [(k, f k)]) (List.nodup_cons.mp hnd).2]
    · simp
    · intro k2 hk2
      have hne : k2 ≠ k := fun e => (List.nodup_cons.mp hnd).1 (e ▸ hk2)
      simp only [List.map_append, List.map_cons, List.map_nil, List.mem_append,
        List.mem_singleton, not_or]
      exact ⟨hdis k2 (List.mem_cons_of_mem _ hk2), hne⟩

theorem own_map_keys {α : Type} (f : String → α) (keys : List String) (c : String) :
    JSObject.own (keys.map (fun k => (k, f k))) c = if c ∈ keys then some (f c) else none := by
  induction keys with
  | nil => simp [own_nil]
  | cons k rest ih =>
    rw [List.map_cons, own_cons, ih]
    by_cases h : k = c
    · subst h
      simp
    · have h2 : ¬ c = k := fun e => h e.symm
      simp [h, h2]

theorem finalize_own (o : JSObject (List String)) (hk : (o.map Prod.fst).Nodup) (c : String) :
    (finalize o).own c = (o.own c).map jsSort := by
  have hperm : (jsSort (objectKeys o)).Perm (o.map Prod.fst) :=
    (jsSort_perm _).trans (objectKeys_perm o)
  unfold finalize
  rw [foldl_assign _ _ [] (hperm.nodup_iff.mpr hk) (by simp), List.nil_append, own_map_keys]
  by_cases hc : c ∈ jsSort (objectKeys o)
  · have hsome : (o.own c).isSome := (own_isSome_iff o c).mpr (hperm.mem_iff.mp hc)
    cases hown : o.own c with
    | none => simp [hown] at hsome
    | some l => simp [hc]
  · have hnone : o.own c = none :=
      (own_eq_none_iff o c).mpr (fun h => hc (hperm.mem_iff.mpr h))
    simp [hc, hnone]

theorem summarises_finalize (med : String) (rawData : List Item) (o : JSObject (List String))
    (h : Collects med rawData o) : Summarises med rawData (finalize o) := by
  obtain ⟨hk, h⟩ := h
  intro c
  obtain ⟨h1, h2⟩ := h c
  rw [finalize_own o hk c]
  constructor
  · rw [← h1]
    cases o.own c <;> simp
  · intro l hl
    cases hown : o.own c with
    | none => simp [hown] at hl
    | some l0 =>
      simp only [hown, Option.map_some', Option.some.injEq] at hl
      subst hl
      obtain ⟨hn, hmem⟩ := h2 l0 hown
      refine ⟨jsSort_sorted l0, (jsSort_perm l0).nodup_iff.mpr hn, fun e => ?_⟩
      rw [(jsSort_perm l0).mem_iff]
      exact hmem e

/-- When every fetched document is clean (its medium is English, Hindi or a name that resolves
to nothing, and the chapter of an English or Hindi document is no inherited property name), the
map is built and holds, per medium, one key per chapter seen and under it the sorted,
duplicate-free list of the non-empty exercise labels seen for that medium and chapter. -/
theorem buildEditSuggestionMap_clean (realm : Realm) (rawData : List Item)
    (hclean : ∀ it ∈ rawData, Clean realm it) :
    ∃ m, buildEditSuggestionMap realm rawData = some m ∧
      Summarises "English" rawData m.English ∧ Summarises "Hindi" rawData m.Hindi := by
  have hinit : ∀ med, Collects med [] ([] : JSObject (List String)) := by
    intro med
    refine ⟨List.nodup_nil, fun c => ⟨by simp [own_nil], fun l hl => ?_⟩⟩
    simp [own_nil] at hl
  obtain ⟨st, hst, he, hh⟩ :=
    runLoop_clean realm rawData { english := [], hindi := [], installed := [], seen := [] } []
      rfl (hinit _) (hinit _) hclean
  refine ⟨{ English := finalize st.english, Hindi := finalize st.hindi }, ?_, ?_, ?_⟩
  · simp [buildEditSuggestionMap, hst]
  · exact summarises_finalize _ _ _ (by simpa using he)
  · exact summarises_finalize _ _ _ (by simpa using hh)

/-! ## The cast of digits to a Number -/

/-- An integer below `2 ^ 53` needs no bits dropped. -/
theorem shiftFor_small (fuel n : Nat) (h : n < 9007199254740992) : shiftFor fuel n 0 = 0 := by
  cases fuel with
  | zero => rfl
  | succ f => simp [shiftFor, h]

/-- An integer below `2 ^ 53` is a double: rounding leaves it as it is. -/
theorem roundToPrecision_small (fuel n : Nat) (h : n < 9007199254740992) :
    roundToPrecision fuel n = n := by
  simp [roundToPrecision, shiftFor_small fuel n h]

/-- `2 ^ 53` lies below the overflow threshold of a double. -/
theorem precision_le_overflow : 9007199254740992 ≤ 2 ^ 1024 - 2 ^ 970 := by
  have hsplit : ∀ a b : Nat, 2 ^ (a + b) = 2 ^ a * 2 ^ b := fun a b => Nat.pow_add 2 a b
  have hmono : ∀ a b : Nat, a ≤ b → 2 ^ a ≤ 2 ^ b :=
    fun a b h => Nat.pow_le_pow_right (by norm_num) h
  have h1 := hsplit 970 54
  have h3 := hmono 53 970 (by norm_num)
  have h4 : (2 : Nat) ^ 54 = 18014398509481984 := by norm_num
  have h2 : (2 : Nat) ^ 53 = 9007199254740992 := by norm_num
  rw [h4] at h1
  rw [h2] at h3
  have h5 : (970 + 54 : Nat) = 1024 := rfl
  rw [h5] at h1
  rw [h1]
  generalize 2 ^ 970 = p at h3
  omega

/-- A run of digits that denotes an integer below `2 ^ 53` casts to that integer. -/
theorem numberOfDigits_small (x : String) (h : digitsValue x.toList < 9007199254740992) :
    numberOfDigits x = JSNumber.finite (digitsValue x.toList : Nat) := by
  unfold numberOfDigits
  simp only [roundToPrecision_small _ _ h]
  split
  · rfl
  · have hbig := precision_le_overflow
    generalize 2 ^ 1024 - 2 ^ 970 = threshold at hbig
    rw [if_neg (by omega)]

/-- The cast of a form string that is a run of digits denoting an integer below `2 ^ 53`. -/
theorem castNumber_digits (lib : Lib) (x : String) (hdigits : isDecimalDigits x = true)
    (hsmall : digitsValue x.toList < 9007199254740992) :
    castNumber lib x = some (JSNumber.finite (digitsValue x.toList : Nat)) := by
  simp [castNumber, hdigits, numberOfDigits_small x hsmall]

/-! ## The claims -/

/-- The scenario of the specification: three documents in two media. -/
theorem buildEditSuggestionMap_scenario (foreignThrows : List Item → Item → Bool) :
    buildEditSuggestionMap (freshRealm foreignThrows)
        [{ medium := "English", chapterName := "Triangles", exercise := some "6.1" },
         { medium := "English", chapterName := "Triangles", exercise := some "6.2" },
         { medium := "Hindi", chapterName := "Triangles", exercise := some "6.1" }] =
      some { English := [("Triangles", ["6.1", "6.2"])], Hindi := [("Triangles", ["6.1"])] } :=
  rfl

/-- The hypothesis of the grouping theorem holds for the scenario of the specification, whose
map therefore has the key `Triangles` under both media. -/
theorem buildEditSuggestionMap_clean_scenario :
    ∃ m, buildEditSuggestionMap (freshRealm (fun _ _ => false))
        [{ medium := "English", chapterName := "Triangles", exercise := some "6.1" },
         { medium := "English", chapterName := "Triangles", exercise := some "6.2" },
         { medium := "Hindi", chapterName := "Triangles", exercise := some "6.1" }] = some m ∧
      (m.English.own "Triangles").isSome ∧ (m.Hindi.own "Triangles").isSome := by
  obtain ⟨m, hm, hE, hH⟩ := buildEditSuggestionMap_clean (freshRealm (fun _ _ => false))
    [{ medium := "English", chapterName := "Triangles", exercise := some "6.1" },
     { medium := "English", chapterName := "Triangles", exercise := some "6.2" },
     { medium := "Hindi", chapterName := "Triangles", exercise := some "6.1" }]
    (by
      intro it hit
      simp only [List.mem_cons, List.mem_singleton, List.not_mem_nil, or_false] at hit
      rcases hit with rfl | rfl | rfl <;>
        exact ⟨by simp, fun _ => by simp [freshRealm, objectPrototypeNames]⟩)
  refine ⟨m, hm, ((hE "Triangles").1).mpr ⟨_, List.mem_cons_self _ _, rfl, rfl⟩,
    ((hH "Triangles").1).mpr ⟨⟨"Hindi", "Triangles", some "6.1"⟩, by simp, rfl, rfl⟩⟩

/-- Claim C1 (code defect): a chapter named like a property every object inherits is lost. For
the single document (English, `constructor`, no exercise) the map has no key `constructor`
under English although a document has that medium and chapter; with the exercise `6.1` the
loop calls `add` on the inherited function and throws, so no map is built at all. -/
theorem buildEditSuggestionMap_inherited_chapter (foreignThrows : List Item → Item → Bool) :
    buildEditSuggestionMap (freshRealm foreignThrows)
        [{ medium := "English", chapterName := "constructor", exercise := none }] =
      some { English := [], Hindi := [] } ∧
    buildEditSuggestionMap (freshRealm foreignThrows)
        [{ medium := "English", chapterName := "constructor", exercise := some "6.1" }] =
      none :=
  ⟨rfl, rfl⟩

/-- `User.findOne({ mobile })` finds the one user that has the mobile number. -/
theorem findOne_unique_user (users : List User) (u : User) (hu : u ∈ users)
    (huniq : ∀ v ∈ users, v.mobile = u.mobile → v = u) :
    findUserByMobile users (some u.mobile) = some u := by
  unfold findUserByMobile
  induction users with
  | nil => simp at hu
  | cons v rest ih =>
    by_cases hv : v.mobile = u.mobile
    · have : v = u := huniq v (List.mem_cons_self _ _) hv
      subst this
      simp
    · have hmem : u ∈ rest := by
        rcases List.mem_cons.mp hu with h | h
        · exact absurd (h ▸ rfl) hv
        · exact h
      have := ih hmem (fun w hw => huniq w (List.mem_cons_of_mem _ hw))
      simp only [Option.some.injEq] at this
      simp [List.find?, hv, this]

/-- `User.findOne({ mobile })` finds some user when a stored user has the mobile number. -/
theorem findOne_member_mobile (users : List User) (u : User) (hu : u ∈ users) :
    ∃ v, findUserByMobile users (some u.mobile) = some v := by
  unfold findUserByMobile
  cases h : users.find? (fun w => decide (some w.mobile = some u.mobile)) with
  | some v => exact ⟨v, rfl⟩
  | none =>
    have := List.find?_eq_none.mp h u hu
    simp at this

/-- A query that includes the class and medium filter sees only documents of that class and medium. -/
theorem filter_scope_filter (p : User) (q : Content → Bool) (store : List Content)
    (hq : ∀ c, q c = true → scopeMatch p c = true) :
    (store.filter (scopeMatch p)).filter q = store.filter q := by
  rw [List.filter_filter]
  apply List.filter_congr
  intro c _
  cases h : q c
  · simp
  · simp [hq c h]

/-- The sibling routes are guarded: `POST /admin/edit/:id` and `GET /admin/delete/:id` redirect
to `/login` and leave the Content Store as it was unless the session is authenticated with role
admin. -/
theorem edit_delete_guarded (lib : Lib) (s : Session) (store : List Content) (id : String)
    (body : Body) (h : ¬ (isAuthenticated s = true ∧ isAdmin s = true)) :
    postAdminEdit lib s store id body = (toLogin, store) ∧
    getAdminDelete lib s store id = (toLogin, store) := by
  unfold postAdminEdit getAdminDelete
  by_cases h1 : isAuthenticated s = true
  · have h2 : ¬ isAdmin s = true := fun h2 => h ⟨h1, h2⟩
    simp [h1, h2]
  · simp [h1]

/-- Claim C2: for a session whose profile snapshot is `p`, the three curriculum routes answer
the same whether or not documents of another class or medium are in the Content Store, and
every chapter name, exercise label or question they render comes from a stored document whose
`classLevel` and `medium` equal those of `p` (and whose subject, chapter and exercise are the
requested ones). -/
theorem curriculum_queries_scoped (s : Session) (p : User) (store : List Content)
    (subject chapter exercise : String) (hp : s.userProfile = some p) :
    (getContentSubject s store subject =
        getContentSubject s (store.filter (scopeMatch p)) subject ∧
      getContentChapter s store subject chapter =
        getContentChapter s (store.filter (scopeMatch p)) subject chapter ∧
      getContentExercise s store subject chapter exercise =
        getContentExercise s (store.filter (scopeMatch p)) subject chapter exercise) ∧
    (∀ title subj chapters back,
      getContentSubject s store subject =
        Response.render (View.chapterList title subj chapters back) →
      ∀ ch ∈ chapters, ∃ c ∈ store, c.chapterName = ch ∧ c.subject = subject ∧
        c.classLevel = p.studentClass ∧ some c.medium = p.medium) ∧
    (∀ title subj chap exercises back,
      getContentChapter s store subject chapter =
        Response.render (View.exerciseList title subj chap exercises back) →
      ∀ e ∈ exercises, ∃ c ∈ store, c.exercise = some e ∧ c.subject = subject ∧
        c.chapterName = chapter ∧ c.classLevel = p.studentClass ∧ some c.medium = p.medium) ∧
    (∀ title subj chap questions ex back,
      getContentChapter s store subject chapter =
        Response.render (View.questionList title subj chap questions ex back) →
      ∀ c ∈ questions, c ∈ store ∧ c.subject = subject ∧ c.chapterName = chapter ∧
        c.classLevel = p.studentClass ∧ some c.medium = p.medium) ∧
    (∀ title subj chap questions ex back,
      getContentExercise s store subject chapter exercise =
        Response.render (View.questionList title subj chap questions ex back) →
      ∀ c ∈ questions, c ∈ store ∧ c.subject = subject ∧ c.chapterName = chapter ∧
        c.exercise = some exercise ∧
        c.classLevel = p.studentClass ∧ some c.medium = p.medium) := by
  refine ⟨⟨?_, ?_, ?_⟩, ?_, ?_, ?_, ?_⟩
  · unfold getContentSubject
    simp only [hp]
    rw [filter_scope_filter p _ store (by intro c; simp; tauto)]
  · unfold getContentChapter
    simp only [hp]
    rw [filter_scope_filter p _ store (by intro c; simp; tauto)]
  · unfold getContentExercise
    simp only [hp]
    rw [filter_scope_filter p _ store (by intro c; simp; tauto)]
  · intro title subj chapters back h ch hch
    unfold getContentSubject at h
    simp only [hp] at h
    split at h
    · simp only [Response.render.injEq, View.chapterList.injEq] at h
      obtain ⟨-, -, rfl, -⟩ := h
      simp only [distinct, List.mem_dedup, List.mem_map, List.mem_filter] at hch
      obtain ⟨c, ⟨hc, hm⟩, rfl⟩ := hch
      simp [scopeMatch] at hm
      exact ⟨c, hc, rfl, hm.2, hm.1.1, hm.1.2⟩
    · simp [toLogin] at h
  · intro title subj chap exercises back h e he
    unfold getContentChapter at h
    simp only [hp] at h
    split at h
    · split at h
      · simp only [Response.render.injEq, View.exerciseList.injEq] at h
        obtain ⟨-, -, -, rfl, -⟩ := h
        simp only [distinct, List.mem_dedup, List.mem_filterMap, List.mem_filter] at he
        obtain ⟨c, ⟨hc, hm⟩, hce⟩ := he
        simp [scopeMatch] at hm
        exact ⟨c, hc, hce, hm.1.2, hm.2, hm.1.1.1, hm.1.1.2⟩
      · simp at h
    · simp [toLogin] at h
  · intro title subj chap questions ex back h c hc
    unfold getContentChapter at h
    simp only [hp] at h
    split at h
    · split at h
      · simp at h
      · simp only [Response.render.injEq, View.questionList.injEq] at h
        obtain ⟨-, -, -, rfl, -, -⟩ := h
        simp only [List.mem_filter] at hc
        obtain ⟨hc, hm⟩ := hc
        simp [scopeMatch] at hm
        exact ⟨hc, hm.1.2, hm.2, hm.1.1.1, hm.1.1.2⟩
    · simp [toLogin] at h
  · intro title subj chap questions ex back h c hc
    unfold getContentExercise at h
    simp only [hp] at h
    split at h
    · simp only [Response.render.injEq, View.questionList.injEq] at h
      obtain ⟨-, -, -, rfl, -, -⟩ := h
      simp only [List.mem_filter] at hc
      obtain ⟨hc, hm⟩ := hc
      simp [scopeMatch] at hm
      exact ⟨hc, hm.1.1.2, hm.1.2, hm.2, hm.1.1.1.1, hm.1.1.1.2⟩
    · simp [toLogin] at h

/-- A class 10 English student asking for Mathematics, Triangles sees exercise 6.1 only; the
class 9 Hindi exercise 6.3 of the same chapter is not listed. -/
theorem curriculum_queries_scoped_witness :
    getContentChapter (sessionOf sampleStudent)
        [mathQuestion, scienceQuestion, otherClassQuestion] "Mathematics" "Triangles" =
      Response.render (View.exerciseList "Triangles" "Mathematics" "Triangles" ["6.1"]
        "/content/Mathematics") ∧
    ∀ e ∈ ["6.1"], ∃ c ∈ [mathQuestion, scienceQuestion, otherClassQuestion],
      c.exercise = some e ∧ c.subject = "Mathematics" ∧ c.chapterName = "Triangles" ∧
      c.classLevel = sampleStudent.studentClass ∧ some c.medium = sampleStudent.medium :=
  ⟨by decide,
   (curriculum_queries_scoped (sessionOf sampleStudent) sampleStudent
      [mathQuestion, scienceQuestion, otherClassQuestion] "Mathematics" "Triangles" "6.1"
      rfl).2.2.1 "Triangles" "Mathematics" "Triangles" ["6.1"] "/content/Mathematics"
      (by decide)⟩

/-- Claim C3 (code defect): `POST /admin/add-solution` never consults the session, and a request
from a session without a logged-in user stores the new document and redirects to the
dashboard, not to `/login`: the route has no `isAuthenticated` or `isAdmin` middleware. -/
theorem add_solution_without_login (lib : Lib) (store : List Content) (fresh : ObjectId) :
    (∀ (s : Session) (upload : Upload) (body : Body),
      postAddSolution lib s store fresh upload body =
        postAddSolution lib anonymous store fresh upload body) ∧
    isAuthenticated anonymous = false ∧ isAdmin anonymous = false ∧
    postAddSolution lib anonymous store fresh Upload.noFile
        [("classLevel", "10"), ("medium", "English"), ("subject", "Mathematics"),
         ("chapterName", "Triangles"), ("exercise", "6.1"), ("questionNumber", "5a")] =
      (Response.redirect "/admin/dashboard?success=true",
        store ++ [{ id := fresh, classLevel := some (JSNumber.finite 10), medium := "English"
                    subject := "Mathematics", chapterName := "Triangles"
                    exercise := some "6.1", questionNumber := "5a"
                    questionDescription := none, videoID := none, textSolution := none
                    questionImage := none }]) := by
  refine ⟨fun s upload body => rfl, rfl, rfl, ?_⟩
  have hcast : castNumber lib "10" = some (JSNumber.finite 10) :=
    (castNumber_digits lib "10" (by decide) (by decide)).trans (by decide)
  simp [postAddSolution, addSolution, newContent, Body.get, truthy, requiredString, hcast]

/-- An anonymous request puts a first document into an empty Content Store. -/
theorem add_solution_without_login_witness :
    (postAddSolution sampleLib anonymous [] 1 Upload.noFile
        [("classLevel", "10"), ("medium", "English"), ("subject", "Mathematics"),
         ("chapterName", "Triangles"), ("exercise", "6.1"), ("questionNumber", "5a")]).2 =
      [mathQuestion] :=
  congrArg Prod.snd (add_solution_without_login sampleLib [] 1).2.2.2

/-- What the size-limit redirect does carry, for every body: the six fields the handler reads
under the names the form uses. -/
theorem upload_too_large_carried_fields (body : Body) :
    ∃ params, errorHandler AppError.limitFileSize body =
        Response.redirectParams "/admin/dashboard" params ∧
      ∀ k ∈ ["classLevel", "medium", "subject", "chapterName", "exercise",
          "questionDescription"],
        params.lookup k = some (orEmpty (body.get k)) := by
  refine ⟨_, rfl, ?_⟩
  intro k hk
  simp only [List.mem_cons, List.mem_singleton, List.not_mem_nil, or_false] at hk
  rcases hk with rfl | rfl | rfl | rfl | rfl | rfl <;> rfl

/-- Claim C4 (code defect): for the body `classLevel=10, subject=Math, questionNumber=5a` the
size-limit redirect carries `classLevel` and `subject`, but the question number is gone. The
handler reads `questionNo` and `videoLink`, names the form does not use, so for every body the
query string has no `questionNumber` and no `videoID`, and here `questionNo` is empty. -/
theorem upload_too_large_loses_fields :
    errorHandler AppError.limitFileSize
        [("classLevel", "10"), ("subject", "Math"), ("questionNumber", "5a")] =
      Response.redirectParams "/admin/dashboard"
        [("error", "File too large! Max limit is 2MB."), ("classLevel", "10"), ("medium", ""),
         ("subject", "Math"), ("chapterName", ""), ("exercise", ""), ("questionNo", ""),
         ("questionDescription", ""), ("videoLink", "")] ∧
    ∀ body : Body, ∃ params,
      errorHandler AppError.limitFileSize body =
        Response.redirectParams "/admin/dashboard" params ∧
      params.lookup "questionNumber" = none ∧ params.lookup "videoID" = none := by
  refine ⟨by decide, fun body => ⟨_, rfl, rfl, rfl⟩⟩

/-- Claim C5: for an authenticated session with profile snapshot `p`, `GET
/content/:subject/:chapter` renders, when the subject is exactly `Mathematics`, the exercise
list holding each exercise label of the documents matching class, medium, subject and chapter
once; for every other subject it renders the question list holding exactly the matching
documents, and rewriting the exercise fields of the stored documents in any way selects the
same documents (with their exercise fields rewritten). -/
theorem chapter_level_by_subject (s : Session) (p : User) (store : List Content)
    (subject chapter : String) (hauth : isAuthenticated s = true)
    (hp : s.userProfile = some p) :
    (subject = "Mathematics" →
      ∃ exercises,
        getContentChapter s store subject chapter =
          Response.render (View.exerciseList chapter subject chapter exercises
            ("/content/" ++ subject)) ∧
        exercises.Nodup ∧
        ∀ e, e ∈ exercises ↔ ∃ c ∈ store, c.classLevel = p.studentClass ∧
          some c.medium = p.medium ∧ c.subject = subject ∧ c.chapterName = chapter ∧
          c.exercise = some e) ∧
    (subject ≠ "Mathematics" →
      getContentChapter s store subject chapter =
          Response.render (View.questionList chapter subject chapter
            (store.filter (fun c => decide (c.classLevel = p.studentClass ∧
              some c.medium = p.medium ∧ c.subject = subject ∧ c.chapterName = chapter)))
            none ("/content/" ++ subject)) ∧
      ∀ g : Content → Option String,
        getContentChapter s (store.map (fun c => { c with exercise := g c })) subject chapter =
          Response.render (View.questionList chapter subject chapter
            ((store.filter (fun c => decide (c.classLevel = p.studentClass ∧
              some c.medium = p.medium ∧ c.subject = subject ∧ c.chapterName = chapter))).map
                (fun c => { c with exercise := g c }))
            none ("/content/" ++ subject))) := by
  constructor
  · intro hm
    refine ⟨distinct ((store.filter (fun c => scopeMatch p c && c.subject == subject
      && c.chapterName == chapter)).filterMap Content.exercise), ?_, ?_, ?_⟩
    · simp only [getContentChapter, hauth, hp, hm, if_true]
    · exact List.nodup_dedup _
    · intro e
      simp only [distinct, List.mem_dedup, List.mem_filterMap, List.mem_filter]
      constructor
      · rintro ⟨c, ⟨hc, hmatch⟩, he⟩
        simp [scopeMatch] at hmatch
        exact ⟨c, hc, hmatch.1.1.1, hmatch.1.1.2, hmatch.1.2, hmatch.2, he⟩
      · rintro ⟨c, hc, h1, h2, h3, h4, he⟩
        exact ⟨c, ⟨hc, by simp [scopeMatch, h1, h2, h3, h4]⟩, he⟩
  · intro hm
    have hpred : ∀ c : Content,
        (scopeMatch p c && c.subject == subject && c.chapterName == chapter) =
          decide (c.classLevel = p.studentClass ∧ some c.medium = p.medium ∧
            c.subject = subject ∧ c.chapterName = chapter) := by
      intro c
      rw [Bool.eq_iff_iff]
      simp [scopeMatch, and_assoc]
    have hfun : (fun c : Content =>
        scopeMatch p c && c.subject == subject && c.chapterName == chapter) =
          fun c => decide (c.classLevel = p.studentClass ∧ some c.medium = p.medium ∧
            c.subject = subject ∧ c.chapterName = chapter) := funext hpred
    constructor
    · simp only [getContentChapter, hauth, hp, hm, if_true, if_false, hfun]
    · intro g
      simp only [getContentChapter, hauth, hp, hm, if_true, if_false]
      congr 2
      rw [List.filter_map]
      congr 1
      apply List.filter_congr
      intro c _
      simp only [Function.comp]
      rw [← hpred c]
      rfl

/-- For Science, Force the route lists the Science question itself. -/
theorem chapter_level_by_subject_witness :
    getContentChapter (sessionOf sampleStudent)
        [mathQuestion, scienceQuestion, otherClassQuestion] "Science" "Force" =
      Response.render (View.questionList "Force" "Science" "Force" [scienceQuestion] none
        "/content/Science") :=
  ((chapter_level_by_subject (sessionOf sampleStudent) sampleStudent
    [mathQuestion, scienceQuestion, otherClassQuestion] "Science" "Force" (by decide) rfl).2
    (by decide)).1.trans (by decide)

/-- Claim C6, counterexample: a stored record whose exercise field is present and holds the empty
string gets the chapter-level back link, so a present exercise does not always give the
exercise-level link. -/
theorem back_link_empty_exercise :
    scienceQuestion.exercise = some "" ∧
    getSolution sampleLib (sessionOf sampleStudent) [mathQuestion, scienceQuestion] "a2" =
      Response.render (View.contentView "Question 1" scienceQuestion "/content/Science/Force") ∧
    ¬ (∀ (c : Content) (e : String), c.exercise = some e →
        backLink c = "/content/" ++ c.subject ++ "/" ++ c.chapterName ++ "/" ++ e) := by
  refine ⟨rfl, by decide, ?_⟩
  intro h
  have := h scienceQuestion "" rfl
  revert this
  decide

/-- Claim C6, amended: for every stored record `GET /solution/:id` serves to an authenticated
session, the back link is the chapter-level path when the exercise is absent or the empty
string, and the exercise-level path when the exercise is a non-empty string. -/
theorem back_link_by_exercise (lib : Lib) (s : Session) (store : List Content) (id : String)
    (oid : ObjectId) (c : Content) (hauth : isAuthenticated s = true)
    (hid : lib.castObjectId id = some oid) (hfound : findContentById store oid = some c) :
    (c.exercise = none ∨ c.exercise = some "" →
      getSolution lib s store id = Response.render (View.contentView
        ("Question " ++ c.questionNumber) c
        ("/content/" ++ c.subject ++ "/" ++ c.chapterName))) ∧
    (∀ e, c.exercise = some e → e ≠ "" →
      getSolution lib s store id = Response.render (View.contentView
        ("Question " ++ c.questionNumber) c
        ("/content/" ++ c.subject ++ "/" ++ c.chapterName ++ "/" ++ e))) := by
  constructor
  · intro h
    rcases h with h | h <;> simp [getSolution, hauth, hid, hfound, backLink, truthy, h]
  · intro e h he
    simp [getSolution, hauth, hid, hfound, backLink, truthy, h, he]

/-- The Mathematics question links back to its exercise list. -/
theorem back_link_by_exercise_witness :
    getSolution sampleLib (sessionOf sampleStudent) [mathQuestion, scienceQuestion] "a1" =
      Response.render (View.contentView "Question 5a" mathQuestion
        "/content/Mathematics/Triangles/6.1") :=
  (back_link_by_exercise sampleLib (sessionOf sampleStudent) [mathQuestion, scienceQuestion]
    "a1" 1 mathQuestion (by decide) (by decide) (by decide)).2 "6.1" (by decide) (by decide)

/-- Claim C7, counterexample: the session of a logged-in student with an incomplete profile gets
the student dashboard, a chapter list and a solution page rendered, not a redirect. -/
theorem incomplete_profile_reaches_content :
    seedStudent.role = Role.student ∧ seedStudent.isProfileComplete = false ∧
    getStudentDashboard (sessionOf seedStudent) =
      Response.render (View.studentDashboard (some seedStudent)) ∧
    getContentSubject (sessionOf seedStudent) [mathQuestion] "Mathematics" =
      Response.render (View.chapterList "Mathematics" "Mathematics" [] "/student/dashboard") ∧
    getSolution sampleLib (sessionOf seedStudent) [mathQuestion] "a1" =
      Response.render (View.contentView "Question 5a" mathQuestion
        "/content/Mathematics/Triangles/6.1") := by
  decide

/-- Claim C7, amended: the student dashboard and the curriculum routes check only that the
session carries a user id. For every such session with a profile snapshot they render their
page (`GET /solution/:id` when the id names a stored record), and the curriculum routes answer
the same whatever value `isProfileComplete` has in the snapshot. -/
theorem routes_ignore_profile_completeness (lib : Lib) (s : Session) (p : User)
    (store : List Content) (subject chapter exercise id : String) (flag : Bool)
    (hauth : isAuthenticated s = true) (hp : s.userProfile = some p) :
    getStudentDashboard s = Response.render (View.studentDashboard (some p)) ∧
    (∃ v, getContentSubject s store subject = Response.render v) ∧
    (∃ v, getContentChapter s store subject chapter = Response.render v) ∧
    (∃ v, getContentExercise s store subject chapter exercise = Response.render v) ∧
    (∀ oid c, lib.castObjectId id = some oid → findContentById store oid = some c →
      ∃ v, getSolution lib s store id = Response.render v) ∧
    getContentSubject { s with userProfile := some { p with isProfileComplete := flag } }
        store subject = getContentSubject s store subject ∧
    getContentChapter { s with userProfile := some { p with isProfileComplete := flag } }
        store subject chapter = getContentChapter s store subject chapter ∧
    getContentExercise { s with userProfile := some { p with isProfileComplete := flag } }
        store subject chapter exercise = getContentExercise s store subject chapter exercise ∧
    getSolution lib { s with userProfile := some { p with isProfileComplete := flag } }
        store id = getSolution lib s store id := by
  have hauth2 : isAuthenticated
      { s with userProfile := some { p with isProfileComplete := flag } } = true := hauth
  refine ⟨?_, ?_, ?_, ?_, ?_, ?_, ?_, ?_, ?_⟩
  · simp [getStudentDashboard, hauth, hp]
  · simp [getContentSubject, hauth, hp]
  · by_cases hm : subject = "Mathematics" <;> simp [getContentChapter, hauth, hp, hm]
  · simp [getContentExercise, hauth, hp]
  · intro oid c hid hfound
    simp [getSolution, hauth, hid, hfound]
  · simp only [getContentSubject, hauth, hauth2, hp, scopeMatch]
  · simp only [getContentChapter, hauth, hauth2, hp, scopeMatch]
  · simp only [getContentExercise, hauth, hauth2, hp, scopeMatch]
  · simp only [getSolution, hauth, hauth2]

/-- The seeded student, whose profile is incomplete, gets the dashboard rendered. -/
theorem routes_ignore_profile_completeness_witness :
    getStudentDashboard (sessionOf seedStudent) =
      Response.render (View.studentDashboard (some seedStudent)) :=
  (routes_ignore_profile_completeness sampleLib (sessionOf seedStudent) seedStudent
    [mathQuestion] "Mathematics" "Triangles" "6.1" "a1" true (by decide) (by decide)).1

/-- Claim C8: a user who submits valid credentials (the mobile number of a stored user, whose
mobile number no other user has, and a password that verifies against the stored hash) is
redirected by `POST /login` to `/student/register` when a student with an incomplete profile,
to `/student/dashboard` when a student with a complete profile, and to `/admin/dashboard` when
an admin. -/
theorem login_redirect (lib : Lib) (users : List User) (s : Session) (body : Body)
    (u : User) (password : String)
    (hu : u ∈ users) (huniq : ∀ v ∈ users, v.mobile = u.mobile → v = u)
    (hmobile : body.get "mobile" = some u.mobile)
    (hpassword : body.get "password" = some password)
    (hvalid : lib.compare password u.password = true) :
    (u.role = Role.student → u.isProfileComplete = false →
      (postLogin lib users s body).1 = Response.redirect "/student/register") ∧
    (u.role = Role.student → u.isProfileComplete = true →
      (postLogin lib users s body).1 = Response.redirect "/student/dashboard") ∧
    (u.role = Role.admin →
      (postLogin lib users s body).1 = Response.redirect "/admin/dashboard") := by
  have hfind := findOne_unique_user users u hu huniq
  refine ⟨?_, ?_, ?_⟩
  · intro hr hc
    simp [postLogin, hmobile, hfind, hpassword, hvalid, hr, hc]
  · intro hr hc
    simp [postLogin, hmobile, hfind, hpassword, hvalid, hr, hc]
  · intro hr
    simp [postLogin, hmobile, hfind, hpassword, hvalid, hr]

/-- The student `add-student.js` creates logs in and lands on `/student/register`. -/
theorem login_redirect_witness :
    (postLogin sampleLib [seedStudent, sampleStudent, sampleAdmin] anonymous
        [("mobile", "1234567890"), ("password", "student123")]).1
      = Response.redirect "/student/register" :=
  (login_redirect sampleLib [seedStudent, sampleStudent, sampleAdmin] anonymous
    [("mobile", "1234567890"), ("password", "student123")] seedStudent "student123"
    (by decide) (by decide) (by decide) (by decide) (by decide)).1 (by decide) (by decide)

/-- Claim C9: `POST /student/register` with the mobile number of a stored user renders the
registration form with the error message and returns the Identity Store as it was. -/
theorem register_duplicate_rejected (lib : Lib) (users : List User) (fresh : ObjectId)
    (body : Body) (u : User) (hu : u ∈ users) (hmobile : body.get "mobile" = some u.mobile) :
    postStudentRegister lib users fresh body =
      (Response.render (View.registrationForm none
        (some "❌ Mobile number already registered. Please Login.")), users) := by
  obtain ⟨v, hv⟩ := findOne_member_mobile users u hu
  simp [postStudentRegister, hmobile, hv]

/-- Registering the mobile number of a stored student leaves both stored users as they were. -/
theorem register_duplicate_rejected_witness :
    postStudentRegister sampleLib [seedStudent, sampleStudent] 9
        [("name", "Ravi"), ("mobile", "9999999999"), ("password", "secret2")] =
      (Response.render (View.registrationForm none
        (some "❌ Mobile number already registered. Please Login.")),
        [seedStudent, sampleStudent]) :=
  register_duplicate_rejected sampleLib [seedStudent, sampleStudent] 9
    [("name", "Ravi"), ("mobile", "9999999999"), ("password", "secret2")] sampleStudent
    (by decide) (by decide)

/-- Claim C10 (code defect): after `POST /verify-user` has rejected a wrong date of birth, one
`POST /reset-password-final` carrying the id of that user replaces the stored password hash
all the same: the second route never checks that the first one matched. -/
theorem reset_password_without_verification (lib : Lib)
    (hcast : lib.castObjectId "a1" = some 1) :
    postVerifyUser [sampleStudent] [("mobile", "9999999999"), ("dob", "1999-01-01")] =
      Response.render
        (View.forgotPassword (some "❌ Details do not match (Wrong Mobile or DOB).")) ∧
    postResetPasswordFinal lib [sampleStudent] [("userId", "a1"), ("newPassword", "intruder")] =
      (Response.render (View.login (some "✅ Password Reset! Please Login.")),
        [{ sampleStudent with password := lib.hash "intruder" }]) := by
  constructor
  · decide
  · simp [postResetPasswordFinal, Body.get, hcast, updateUserById, sampleStudent]

/-- The stored hash of the sample student is replaced by the hash of the intruder password. -/
theorem reset_password_without_verification_witness :
    postResetPasswordFinal sampleLib [sampleStudent]
        [("userId", "a1"), ("newPassword", "intruder")] =
      (Response.render (View.login (some "✅ Password Reset! Please Login.")),
        [{ sampleStudent with password := "hash:intruder" }]) :=
  (reset_password_without_verification sampleLib (by decide)).2

/-! ## Change password, round trip, deletion, key order -/

/-- For a string without characters beyond the Basic Multilingual Plane, the JavaScript
`length` is the number of characters. -/
theorem jsLength_eq_length (s : String) (hbmp : ∀ c ∈ s.toList, c.toNat < 65536) :
    jsLength s = s.length := by
  unfold jsLength codeUnits
  show ((s.toList.map utf16).flatten).length = s.toList.length
  generalize s.toList = cs at hbmp
  induction cs with
  | nil => rfl
  | cons c rest ih =>
    have hc : utf16 c = [c.toNat] := by
      simp [utf16, hbmp c (List.mem_cons_self _ _)]
    simp only [List.map_cons, List.flatten_cons, List.length_append, hc, List.length_cons,
      List.length_nil]
    rw [ih (fun d hd => hbmp d (List.mem_cons_of_mem _ hd))]
    omega

/-- Claim C11: `POST /change-password` changes the Identity Store only when the session carries a
user id, `newPassword` equals `confirmPassword`, `newPassword` has a `length` of at least 6
(JavaScript counts UTF-16 code units) and `oldPassword` verifies against the stored hash of the
session's user; the store then holds the hash of the new password for that user. For a session
with a user id, a mismatch, then a too-short password, then a wrong old password is answered by
the change-password form with its error message and the store as it was. -/
theorem change_password_guarded (lib : Lib) (s : Session) (users : List User) (body : Body) :
    ((postChangePassword lib s users body).2 ≠ users →
      isAuthenticated s = true ∧
      body.get "newPassword" = body.get "confirmPassword" ∧
      ∃ userId user newPassword oldPassword,
        s.userId = some userId ∧ findUserById users userId = some user ∧
        body.get "newPassword" = some newPassword ∧ 6 ≤ jsLength newPassword ∧
        body.get "oldPassword" = some oldPassword ∧
        lib.compare oldPassword user.password = true ∧
        (postChangePassword lib s users body).2 =
          updateUserById (fun u => { u with password := lib.hash newPassword }) userId users) ∧
    (isAuthenticated s = true → body.get "newPassword" ≠ body.get "confirmPassword" →
      postChangePassword lib s users body =
        (Response.render (View.changePassword (some "Change Password") s.userProfile
          (some "New passwords do not match.") none), users)) ∧
    (isAuthenticated s = true → ∀ newPassword, body.get "newPassword" = some newPassword →
      body.get "confirmPassword" = some newPassword → jsLength newPassword < 6 →
      postChangePassword lib s users body =
        (Response.render (View.changePassword (some "Change Password") s.userProfile
          (some "Password must be at least 6 characters long.") none), users)) ∧
    (∀ userId user newPassword oldPassword,
      s.userId = some userId → findUserById users userId = some user →
      body.get "newPassword" = some newPassword →
      body.get "confirmPassword" = some newPassword → 6 ≤ jsLength newPassword →
      body.get "oldPassword" = some oldPassword →
      (lib.compare oldPassword user.password = false →
        postChangePassword lib s users body =
          (Response.render (View.changePassword (some "Change Password") s.userProfile
            (some "Incorrect current password.") none), users)) ∧
      (lib.compare oldPassword user.password = true →
        postChangePassword lib s users body =
          (Response.render (View.changePassword (some "Change Password") s.userProfile
            none (some "Password changed successfully!")),
            updateUserById (fun u => { u with password := lib.hash newPassword })
              userId users))) := by
  refine ⟨?_, ?_, ?_, ?_⟩
  · intro hchanged
    cases hid : s.userId with
    | none => simp [postChangePassword, hid] at hchanged
    | some userId =>
      by_cases hne : body.get "newPassword" = body.get "confirmPassword"
      · cases hnew : body.get "newPassword" with
        | none =>
          rw [hnew] at hne
          simp [postChangePassword, hid, hnew, ← hne] at hchanged
        | some newPassword =>
          rw [hnew] at hne
          by_cases hlen : jsLength newPassword < 6
          · simp [postChangePassword, hid, hnew, ← hne, hlen] at hchanged
          · cases hfind : findUserById users userId with
            | none => simp [postChangePassword, hid, hnew, ← hne, hlen, hfind] at hchanged
            | some user =>
              cases hold : body.get "oldPassword" with
              | none =>
                simp [postChangePassword, hid, hnew, ← hne, hlen, hfind, hold] at hchanged
              | some oldPassword =>
                by_cases hcmp : lib.compare oldPassword user.password = true
                · refine ⟨by simp [isAuthenticated, hid], hne, userId, user, newPassword,
                    oldPassword, rfl, hfind, rfl, Nat.le_of_not_lt hlen, rfl, hcmp, ?_⟩
                  simp [postChangePassword, hid, hnew, ← hne, hlen, hfind, hold, hcmp]
                · simp [postChangePassword, hid, hnew, ← hne, hlen, hfind, hold, hcmp]
                    at hchanged
      · simp [postChangePassword, hid, hne] at hchanged
  · intro hauth hne
    unfold postChangePassword
    cases hid : s.userId with
    | none => simp [isAuthenticated, hid] at hauth
    | some userId => simp [hne]
  · intro hauth newPassword hnew hconf hlen
    unfold postChangePassword
    cases hid : s.userId with
    | none => simp [isAuthenticated, hid] at hauth
    | some userId => simp [hnew, hconf, hlen]
  · intro userId user newPassword oldPassword hid hfind hnew hconf hlen hold
    have hlen2 : ¬ jsLength newPassword < 6 := Nat.not_lt.mpr hlen
    constructor
    · intro hcmp
      simp [postChangePassword, hid, hfind, hnew, hconf, hlen2, hold, hcmp]
    · intro hcmp
      simp [postChangePassword, hid, hfind, hnew, hconf, hlen2, hold, hcmp]

/-- The sample student changes the password with the right old password, and is refused with
a wrong one. -/
theorem change_password_guarded_witness :
    postChangePassword sampleLib (sessionOf sampleStudent) [seedStudent, sampleStudent]
        [("oldPassword", "secret1"), ("newPassword", "secret2"),
         ("confirmPassword", "secret2")] =
      (Response.render (View.changePassword (some "Change Password") (some sampleStudent)
        none (some "Password changed successfully!")),
        [seedStudent, { sampleStudent with password := "hash:secret2" }]) ∧
    postChangePassword sampleLib (sessionOf sampleStudent) [seedStudent, sampleStudent]
        [("oldPassword", "wrong"), ("newPassword", "secret2"),
         ("confirmPassword", "secret2")] =
      (Response.render (View.changePassword (some "Change Password") (some sampleStudent)
        (some "Incorrect current password.") none), [seedStudent, sampleStudent]) :=
  ⟨((change_password_guarded sampleLib (sessionOf sampleStudent) [seedStudent, sampleStudent]
      [("oldPassword", "secret1"), ("newPassword", "secret2"),
       ("confirmPassword", "secret2")]).2.2.2 1 sampleStudent "secret2" "secret1"
      (by decide) (by decide) (by decide) (by decide) (by decide) (by decide)).2
      (by decide),
   ((change_password_guarded sampleLib (sessionOf sampleStudent) [seedStudent, sampleStudent]
      [("oldPassword", "wrong"), ("newPassword", "secret2"),
       ("confirmPassword", "secret2")]).2.2.2 1 sampleStudent "secret2" "wrong"
      (by decide) (by decide) (by decide) (by decide) (by decide) (by decide)).1
      (by decide)⟩

/-- The redirect of the error handler is never the success redirect of the create route. -/
theorem error_redirect_ne_success (message : String) :
    "/admin/dashboard?error=" ++ message ≠ "/admin/dashboard?success=true" := by
  intro h
  have h1 := congrArg (fun t : String => t.data[17]?) h
  simp only [String.data_append] at h1
  have h2 : ("/admin/dashboard?error=".data ++ message.data)[17]? = some 'e' := by
    rw [List.getElem?_append_left (by decide)]
    decide
  rw [h2] at h1
  revert h1
  decide

/-- A document appended under an id no stored document has is the one `findById` returns. -/
theorem findContentById_append_fresh (store : List Content) (c : Content)
    (hfresh : ∀ d ∈ store, d.id ≠ c.id) :
    findContentById (store ++ [c]) c.id = some c := by
  unfold findContentById
  rw [List.find?_append]
  have : store.find? (fun d => d.id == c.id) = none := by
    rw [List.find?_eq_none]
    intro d hd
    simpa using hfresh d hd
  simp [this]

/-- The document `new Content(fields)` builds, when validation accepts it: the class level is
the Number the form string casts to, every other field is the form value as sent. -/
theorem newContent_fields (lib : Lib) (fresh : ObjectId) (body : Body) (image : Option String)
    (c : Content) (h : newContent lib fresh body image = some c) :
    c.id = fresh ∧
    c.classLevel = (body.get "classLevel").bind (castNumber lib) ∧
    c.classLevel.isSome = true ∧
    some c.medium = body.get "medium" ∧ some c.subject = body.get "subject" ∧
    some c.chapterName = body.get "chapterName" ∧ c.exercise = body.get "exercise" ∧
    some c.questionNumber = body.get "questionNumber" ∧
    c.questionDescription = body.get "questionDescription" ∧
    c.videoID = body.get "videoID" ∧ c.textSolution = body.get "textSolution" ∧
    c.questionImage = image := by
  unfold newContent at h
  split at h
  · rename_i classLevel medium subject chapterName questionNumber h1 h2 h3 h4 h5
    simp only [Option.some.injEq] at h
    subst h
    simp only [requiredString, truthy_eq_some] at h2 h3 h4 h5
    cases hcl : body.get "classLevel" with
    | none => simp [hcl, truthy] at h1
    | some x =>
      have hx : truthy (some x) = some x := by
        by_cases hx : x = ""
        · simp [hcl, truthy, hx] at h1
        · simp [truthy, hx]
      rw [hcl, hx] at h1
      have h1b : castNumber lib x = some classLevel := h1
      simp [h1b, h2.1, h3.1, h4.1, h5.1]
  · simp at h

/-- Claim C12, counterexample: the form value `9007199254740993` for classLevel is accepted,
and the record read back holds 9007199254740992, the nearest double, not the number sent. -/
theorem round_trip_rounds_class_level :
    postAddSolution sampleLib anonymous [] 1 Upload.noFile
        [("classLevel", "9007199254740993"), ("medium", "English"),
         ("subject", "Mathematics"), ("chapterName", "Triangles"),
         ("questionNumber", "5a")] =
      (Response.redirect "/admin/dashboard?success=true", [roundedQuestion]) ∧
    getSolution sampleLib (sessionOf sampleAdmin) [roundedQuestion] "a1" =
      Response.render (View.contentView "Question 5a" roundedQuestion
        "/content/Mathematics/Triangles") ∧
    roundedQuestion.classLevel = some (JSNumber.finite 9007199254740992) ∧
    digitsValue "9007199254740993".toList = 9007199254740993 ∧
    roundedQuestion.classLevel ≠
      some (JSNumber.finite (digitsValue "9007199254740993".toList : Nat)) := by
  refine ⟨by decide, by decide, rfl, by decide, by decide⟩

/-- Claim C12, amended: when `POST /admin/add-solution` accepts a form (it answers with the
success redirect) under an id no stored document has, `GET /solution/:id` for that id, from an
authenticated session, renders a record whose medium, subject, chapterName, exercise,
questionNumber, questionDescription, videoID and textSolution are the form values as sent and
whose image reference is the one the upload returned (none without a file). Its classLevel is
the Number the form string casts to: when the form sends a run of decimal digits that denotes
an integer below `2 ^ 53`, that integer. -/
theorem create_then_get_round_trip (lib : Lib) (s0 s : Session) (store store1 : List Content)
    (fresh : ObjectId) (upload : Upload) (body : Body) (id : String)
    (hcreated : postAddSolution lib s0 store fresh upload body =
      (Response.redirect "/admin/dashboard?success=true", store1))
    (hfresh : ∀ d ∈ store, d.id ≠ fresh) (hid : lib.castObjectId id = some fresh)
    (hauth : isAuthenticated s = true) :
    ∃ c, getSolution lib s store1 id =
        Response.render (View.contentView ("Question " ++ c.questionNumber) c (backLink c)) ∧
      c.classLevel = (body.get "classLevel").bind (castNumber lib) ∧
      (∀ x, body.get "classLevel" = some x → isDecimalDigits x = true →
        digitsValue x.toList < 9007199254740992 →
        c.classLevel = some (JSNumber.finite (digitsValue x.toList : Nat))) ∧
      some c.medium = body.get "medium" ∧ some c.subject = body.get "subject" ∧
      some c.chapterName = body.get "chapterName" ∧ c.exercise = body.get "exercise" ∧
      some c.questionNumber = body.get "questionNumber" ∧
      c.questionDescription = body.get "questionDescription" ∧
      c.videoID = body.get "videoID" ∧ c.textSolution = body.get "textSolution" ∧
      c.questionImage = (match upload with
        | Upload.stored path => some path
        | _ => none) := by
  have key : ∀ image : Option String,
      addSolution lib store fresh body image =
        (Response.redirect "/admin/dashboard?success=true", store1) →
      ∃ c, newContent lib fresh body image = some c ∧ store1 = store ++ [c] := by
    intro image h
    unfold addSolution at h
    cases hn : newContent lib fresh body image with
    | none => simp [hn] at h
    | some c =>
      simp only [hn, Prod.mk.injEq, true_and] at h
      exact ⟨c, rfl, h.symm⟩
  have finish : ∀ (image : Option String) (c : Content),
      newContent lib fresh body image = some c → store1 = store ++ [c] →
      getSolution lib s store1 id =
          Response.render
            (View.contentView ("Question " ++ c.questionNumber) c (backLink c)) ∧
        c.classLevel = (body.get "classLevel").bind (castNumber lib) ∧
        (∀ x, body.get "classLevel" = some x → isDecimalDigits x = true →
          digitsValue x.toList < 9007199254740992 →
          c.classLevel = some (JSNumber.finite (digitsValue x.toList : Nat))) ∧
        some c.medium = body.get "medium" ∧ some c.subject = body.get "subject" ∧
        some c.chapterName = body.get "chapterName" ∧ c.exercise = body.get "exercise" ∧
        some c.questionNumber = body.get "questionNumber" ∧
        c.questionDescription = body.get "questionDescription" ∧
        c.videoID = body.get "videoID" ∧ c.textSolution = body.get "textSolution" ∧
        c.questionImage = image := by
    intro image c hn hs
    obtain ⟨hcid, hcl, -, hrest⟩ := newContent_fields lib fresh body image c hn
    have hfind : findContentById store1 fresh = some c := by
      rw [hs, ← hcid]
      exact findContentById_append_fresh store c (fun d hd => hcid ▸ hfresh d hd)
    refine ⟨by simp [getSolution, hauth, hid, hfind], hcl, ?_, hrest⟩
    intro x hx hdigits hsmall
    rw [hcl, hx]
    exact castNumber_digits lib x hdigits hsmall
  cases upload with
  | tooLarge => simp [postAddSolution, errorHandler] at hcreated
  | failed message =>
    simp only [postAddSolution, errorHandler, Prod.mk.injEq, Response.redirect.injEq] at hcreated
    exact absurd hcreated.1 (error_redirect_ne_success message)
  | stored path =>
    obtain ⟨c, hn, hs⟩ := key (some path) hcreated
    exact ⟨c, finish _ c hn hs⟩
  | noFile =>
    obtain ⟨c, hn, hs⟩ := key none hcreated
    exact ⟨c, finish _ c hn hs⟩

/-- Creating the Mathematics question next to the Science question and reading it back gives
the fields of the form, the class level 10 included. -/
theorem create_then_get_round_trip_witness :
    ∃ c, getSolution sampleLib (sessionOf sampleStudent) [scienceQuestion, mathQuestion] "a1" =
        Response.render (View.contentView ("Question " ++ c.questionNumber) c (backLink c)) ∧
      c.classLevel = some (JSNumber.finite 10) ∧ some c.medium = some "English" ∧
      c.exercise = some "6.1" ∧ some c.questionNumber = some "5a" ∧ c.videoID = none := by
  obtain ⟨c, h, -, hcl, hm, -, -, hex, hq, -, hv, -, -⟩ :=
    create_then_get_round_trip sampleLib anonymous (sessionOf sampleStudent) [scienceQuestion]
      [scienceQuestion, mathQuestion] 1 Upload.noFile
      [("classLevel", "10"), ("medium", "English"), ("subject", "Mathematics"),
       ("chapterName", "Triangles"), ("exercise", "6.1"), ("questionNumber", "5a")] "a1"
      (by decide) (by decide) (by decide) (by decide)
  exact ⟨c, h, (hcl "10" (by decide) (by decide) (by decide)).trans (by decide),
    hm.trans (by decide), hex.trans (by decide), hq.trans (by decide), hv.trans (by decide)⟩

/-- After `findByIdAndDelete(id)` no stored document has that id, ids being unique. -/
theorem delete_absent (oid : ObjectId) :
    ∀ store : List Content, (store.map Content.id).Nodup →
      ∀ c ∈ deleteContentById store oid, c.id ≠ oid := by
  intro store
  induction store with
  | nil => intro _ c hc; simp [deleteContentById] at hc
  | cons d rest ih =>
    intro hnd c hc
    rw [List.map_cons, List.nodup_cons] at hnd
    by_cases hd : d.id = oid
    · have : deleteContentById (d :: rest) oid = rest := by
        simp [deleteContentById, List.eraseP_cons, hd]
      rw [this] at hc
      intro hcid
      exact hnd.1 (hd ▸ hcid ▸ List.mem_map_of_mem Content.id hc)
    · have : deleteContentById (d :: rest) oid = d :: deleteContentById rest oid := by
        simp [deleteContentById, List.eraseP_cons, hd]
      rw [this] at hc
      rcases List.mem_cons.mp hc with h | h
      · exact h ▸ hd
      · exact ih hnd.2 c h

/-- `findByIdAndDelete(id)` keeps every document with another id. -/
theorem delete_keeps_others (store : List Content) (oid : ObjectId) (c : Content)
    (hc : c.id ≠ oid) : c ∈ deleteContentById store oid ↔ c ∈ store := by
  unfold deleteContentById
  exact List.mem_eraseP_of_neg (by simpa using hc)

/-- Deleting the same id a second time removes nothing more. -/
theorem delete_twice (store : List Content) (oid : ObjectId)
    (hnd : (store.map Content.id).Nodup) :
    deleteContentById (deleteContentById store oid) oid = deleteContentById store oid := by
  have h := delete_absent oid store hnd
  generalize deleteContentById store oid = once at h
  unfold deleteContentById
  exact List.eraseP_of_forall_not (fun c hc => by simpa using h c hc)

/-- Claim C13: on a Content Store with unique ids, `GET /admin/delete/:id` asked twice gives the
response and the store it gives when asked once. For an admin session and an id that is an
`ObjectId`, both responses are the redirect to `/admin/database`, and the store afterwards
holds exactly the documents with another id. -/
theorem delete_idempotent (lib : Lib) (s : Session) (store : List Content) (id : String)
    (hnd : (store.map Content.id).Nodup) :
    getAdminDelete lib s (getAdminDelete lib s store id).2 id = getAdminDelete lib s store id ∧
    (isAuthenticated s = true → isAdmin s = true →
      ∀ oid, lib.castObjectId id = some oid →
        (getAdminDelete lib s store id).1 = Response.redirect "/admin/database" ∧
        (getAdminDelete lib s (getAdminDelete lib s store id).2 id).1 =
          Response.redirect "/admin/database" ∧
        ∀ c, c ∈ (getAdminDelete lib s store id).2 ↔ c ∈ store ∧ c.id ≠ oid) := by
  constructor
  · unfold getAdminDelete
    by_cases h1 : isAuthenticated s = true
    · by_cases h2 : isAdmin s = true
      · cases h3 : lib.castObjectId id with
        | none => simp [h1, h2, h3]
        | some oid => simp [h1, h2, h3, delete_twice store oid hnd]
      · simp [h1, h2]
    · simp [h1]
  · intro h1 h2 oid h3
    have hstore : (getAdminDelete lib s store id).2 = deleteContentById store oid := by
      simp [getAdminDelete, h1, h2, h3]
    refine ⟨by simp [getAdminDelete, h1, h2, h3], ?_, ?_⟩
    · simp [getAdminDelete, h1, h2, h3]
    · intro c
      rw [hstore]
      constructor
      · intro hc
        have hne := delete_absent oid store hnd c hc
        exact ⟨(delete_keeps_others store oid c hne).mp hc, hne⟩
      · rintro ⟨hc, hne⟩
        exact (delete_keeps_others store oid c hne).mpr hc

/-- An admin deletes the Science question twice: same redirect, the two other questions stay. -/
theorem delete_idempotent_witness :
    getAdminDelete sampleLib (sessionOf sampleAdmin)
        (getAdminDelete sampleLib (sessionOf sampleAdmin)
          [mathQuestion, scienceQuestion, otherClassQuestion] "a2").2 "a2" =
      (Response.redirect "/admin/database", [mathQuestion, otherClassQuestion]) :=
  (delete_idempotent sampleLib (sessionOf sampleAdmin)
    [mathQuestion, scienceQuestion, otherClassQuestion] "a2" (by decide)).1.trans (by decide)

/-- The own properties of one medium of the final map are created in sorted order. -/
theorem finalize_keys (o : JSObject (List String)) (hk : (o.map Prod.fst).Nodup) :
    (finalize o).map Prod.fst = jsSort (objectKeys o) := by
  have hperm : (jsSort (objectKeys o)).Perm (o.map Prod.fst) :=
    (jsSort_perm _).trans (objectKeys_perm o)
  unfold finalize
  rw [foldl_assign _ _ [] (hperm.nodup_iff.mpr hk) (by simp), List.nil_append, List.map_map]
  exact List.map_id _

/-- How one medium of the final map enumerates: first the chapter names that are array indices,
in ascending numeric order, then the other chapter names in ascending `sort()` order. -/
theorem finalize_enumeration (o : JSObject (List String)) (hk : (o.map Prod.fst).Nodup) :
    ∃ indices others,
      objectKeys (finalize o) = indices ++ others ∧
      (∀ k ∈ indices, isArrayIndex k = true) ∧
      indices.Sorted (fun a b => indexValue a ≤ indexValue b) ∧
      (∀ k ∈ others, isArrayIndex k = false) ∧ others.Sorted jsLE ∧
      (indices ++ others).Perm (o.map Prod.fst) := by
  haveI : IsTotal String (fun a b => indexValue a ≤ indexValue b) :=
    ⟨fun a b => Nat.le_total _ _⟩
  haveI : IsTrans String (fun a b => indexValue a ≤ indexValue b) :=
    ⟨fun a b c => Nat.le_trans⟩
  refine ⟨_, _, rfl, ?_, List.sorted_insertionSort _ _, ?_, ?_, ?_⟩
  · intro k hk1
    rw [(List.perm_insertionSort _ _).mem_iff, List.mem_filter] at hk1
    exact hk1.2
  · intro k hk1
    rw [List.mem_filter] at hk1
    simpa using hk1.2
  · rw [finalize_keys o hk]
    exact List.Pairwise.filter _ (jsSort_sorted _)
  · exact (objectKeys_perm (finalize o)).trans
      ((finalize_keys o hk) ▸ (jsSort_perm _).trans (objectKeys_perm o))

/-- Without array-index names, one medium of the final map enumerates in `sort()` order. -/
theorem finalize_enumeration_sorted (o : JSObject (List String))
    (hk : (o.map Prod.fst).Nodup) (hno : ∀ k ∈ o.map Prod.fst, isArrayIndex k = false) :
    (objectKeys (finalize o)).Sorted jsLE := by
  have hkeys := finalize_keys o hk
  have hperm : (jsSort (objectKeys o)).Perm (o.map Prod.fst) :=
    (jsSort_perm _).trans (objectKeys_perm o)
  unfold objectKeys
  rw [hkeys]
  have h1 : (jsSort (objectKeys o)).filter isArrayIndex = [] := by
    rw [List.filter_eq_nil_iff]
    intro k hk1
    simp [hno k (hperm.mem_iff.mp hk1)]
  have h2 : (jsSort (objectKeys o)).filter (fun k => !isArrayIndex k) =
      jsSort (objectKeys o) := by
    rw [List.filter_eq_self]
    intro k hk1
    simp [hno k (hperm.mem_iff.mp hk1)]
  rw [h1, h2]
  simpa using jsSort_sorted (objectKeys o)

/-- When every fetched document is clean and no chapter name is an array index, the medium keys
and, under each medium, the chapter keys of the map enumerate in ascending `sort()` order. -/
theorem suggestion_map_key_order_clean (realm : Realm) (rawData : List Item)
    (hclean : ∀ it ∈ rawData, Clean realm it)
    (hno : ∀ it ∈ rawData, isArrayIndex it.chapterName = false) :
    ∃ m, buildEditSuggestionMap realm rawData = some m ∧
      (m.mediumKeys).Sorted jsLE ∧
      (objectKeys m.English).Sorted jsLE ∧ (objectKeys m.Hindi).Sorted jsLE := by
  have hinit : ∀ med, Collects med [] ([] : JSObject (List String)) := by
    intro med
    refine ⟨List.nodup_nil, fun c => ⟨by simp [own_nil], fun l hl => ?_⟩⟩
    simp [own_nil] at hl
  obtain ⟨st, hst, he, hh⟩ :=
    runLoop_clean realm rawData { english := [], hindi := [], installed := [], seen := [] } []
      rfl (hinit _) (hinit _) hclean
  simp only [List.nil_append] at he hh
  have hkeys : ∀ (med : String) (o : JSObject (List String)), Collects med rawData o →
      ∀ k ∈ o.map Prod.fst, isArrayIndex k = false := by
    intro med o hc k hk
    obtain ⟨it, hit, -, hchap⟩ := ((hc.2 k).1).mp ((own_isSome_iff o k).mpr hk)
    exact hchap ▸ hno it hit
  refine ⟨{ English := finalize st.english, Hindi := finalize st.hindi }, ?_,
    (by decide : (["English", "Hindi"] : List String).Sorted jsLE), ?_, ?_⟩
  · simp [buildEditSuggestionMap, hst]
  · exact finalize_enumeration_sorted _ he.1 (hkeys _ _ he)
  · exact finalize_enumeration_sorted _ hh.1 (hkeys _ _ hh)

/-- Claim C14 (code defect): for the chapters `9` and `10` under English, the handler creates
the keys in sorted order (`10`, then `9`), but a plain object enumerates array-index names
first and numerically, so the view sees `9` before `10`, which is not the ascending lexical
order `10`, `9`. The medium keys do enumerate as English, Hindi. -/
theorem suggestion_map_numeric_chapters (foreignThrows : List Item → Item → Bool) :
    ∃ m, buildEditSuggestionMap (freshRealm foreignThrows)
        [{ medium := "English", chapterName := "9", exercise := some "9.1" },
         { medium := "English", chapterName := "10", exercise := some "10.1" }] = some m ∧
      m.mediumKeys = ["English", "Hindi"] ∧
      m.English = [("10", ["10.1"]), ("9", ["9.1"])] ∧
      objectKeys m.English = ["9", "10"] ∧
      jsSort ["9", "10"] = ["10", "9"] ∧
      ¬ (objectKeys m.English).Sorted jsLE := by
  refine ⟨{ English := [("10", ["10.1"]), ("9", ["9.1"])], Hindi := [] }, rfl, rfl, rfl,
    by decide, by decide, by decide⟩

end FreeSolutions
